import Mathlib

/-!
# Verification of the gridded data source core

A shallow embedding of the grid binning engine (`GridMath`), the expression
engine (`Expressions`) and the option handling of the gridded data source,
together with proofs about the claims of the specification.

Modelling conventions:

* JavaScript numbers are modelled as exact rationals (`ℚ`) together with the
  special values `NaN`, `Infinity` and `-Infinity` (`JsNum`).  No claim under
  verification hinges on binary floating-point rounding, so arithmetic on the
  finite values is exact.  The negative zero of IEEE arithmetic is not
  distinguished from zero.
* JavaScript's transcendental math functions (`Math.sin`, `Math.cos`,
  `Math.sqrt`, `Math.atan`, `Math.exp`, `Math.log`, `Math.pow`) and its
  string-to-number parsers are kept opaque: they are fields of a `JsMath`
  parameter record that is threaded through every definition that the source
  code feeds into them.  No claim depends on their values, and the theorems
  quantify over the parameter record.
* JavaScript objects are modelled as association lists with first-match
  lookup; property insertion appends a new key or overwrites the first
  occurrence, mirroring insertion-order key enumeration for the non-integer
  string keys used by this code base.
* Fallible code returns `Except String`; a thrown JavaScript exception is an
  `Except.error`.
-/

/- The Batteries rational operations are `@[irreducible]`, which only blocks
the elaborator's evaluation of `Decidable` instances; the kernel ignores
reducibility.  Concrete runs of the embedded code are settled by `decide`,
so the operations are restored to their default reducibility. -/
set_option allowUnsafeReducibility true in
attribute [semireducible] Rat.add Rat.mul Rat.sub Rat.div Rat.neg Rat.inv Rat.blt
  Rat.ofScientific

namespace GriddedDS

/-- Decidable equality of `Except` results, used to settle concrete runs of
the embedded code by computation. -/
instance {ε α : Type} [DecidableEq ε] [DecidableEq α] : DecidableEq (Except ε α) :=
  fun a b =>
    match a, b with
    | .ok x, .ok y => decidable_of_iff (x = y) (by simp)
    | .error x, .error y => decidable_of_iff (x = y) (by simp)
    | .ok _, .error _ => isFalse (by simp)
    | .error _, .ok _ => isFalse (by simp)

/-- A JavaScript number: an exact rational or one of the special values. -/
inductive JsNum where
  | fin (q : ℚ)
  | nan
  | inf
  | ninf
deriving DecidableEq, Repr

namespace JsNum

/-- Negation of a JavaScript number. -/
def neg : JsNum → JsNum
  | .fin q => .fin (-q)
  | .nan => .nan
  | .inf => .ninf
  | .ninf => .inf

/-- Addition of JavaScript numbers (`+` on numeric operands). -/
def add : JsNum → JsNum → JsNum
  | .fin a, .fin b => .fin (a + b)
  | .nan, _ => .nan
  | _, .nan => .nan
  | .inf, .ninf => .nan
  | .ninf, .inf => .nan
  | .inf, _ => .inf
  | _, .inf => .inf
  | .ninf, _ => .ninf
  | _, .ninf => .ninf

/-- Subtraction of JavaScript numbers. -/
def sub (a b : JsNum) : JsNum := a.add b.neg

/-- Multiplication of JavaScript numbers. -/
def mul : JsNum → JsNum → JsNum
  | .fin a, .fin b => .fin (a * b)
  | .nan, _ => .nan
  | _, .nan => .nan
  | .inf, .fin b => if b = 0 then .nan else if 0 < b then .inf else .ninf
  | .fin a, .inf => if a = 0 then .nan else if 0 < a then .inf else .ninf
  | .ninf, .fin b => if b = 0 then .nan else if 0 < b then .ninf else .inf
  | .fin a, .ninf => if a = 0 then .nan else if 0 < a then .ninf else .inf
  | .inf, .inf => .inf
  | .ninf, .ninf => .inf
  | .inf, .ninf => .ninf
  | .ninf, .inf => .ninf

/-- Division of JavaScript numbers.  `0/0` is `NaN`, division of a nonzero
finite value by zero gives a signed infinity (the sign of IEEE negative zero
is not modelled). -/
def div : JsNum → JsNum → JsNum
  | .fin a, .fin b =>
      if b = 0 then (if a = 0 then .nan else if 0 < a then .inf else .ninf)
      else .fin (a / b)
  | .nan, _ => .nan
  | _, .nan => .nan
  | .inf, .fin b => if b < 0 then .ninf else .inf
  | .ninf, .fin b => if b < 0 then .inf else .ninf
  | .fin _, .inf => .fin 0
  | .fin _, .ninf => .fin 0
  | .inf, .inf => .nan
  | .inf, .ninf => .nan
  | .ninf, .inf => .nan
  | .ninf, .ninf => .nan

/-- Truncating integer division used by the JavaScript remainder operator. -/
def ratTrunc (q : ℚ) : ℤ := if q < 0 then ⌈q⌉ else ⌊q⌋

/-- The JavaScript remainder operator `%` (sign of the dividend). -/
def mod : JsNum → JsNum → JsNum
  | .fin a, .fin b => if b = 0 then .nan else .fin (a - b * (ratTrunc (a / b) : ℚ))
  | .fin a, .inf => .fin a
  | .fin a, .ninf => .fin a
  | _, _ => .nan

/-- Strict comparison of JavaScript numbers; any comparison with `NaN` is
false. -/
def ltB : JsNum → JsNum → Bool
  | .fin a, .fin b => decide (a < b)
  | .nan, _ => false
  | _, .nan => false
  | .inf, _ => false
  | .ninf, .inf => true
  | .ninf, .ninf => false
  | .ninf, .fin _ => true
  | .fin _, .inf => true
  | .fin _, .ninf => false

/-- Non-strict comparison of JavaScript numbers; any comparison with `NaN` is
false. -/
def leB : JsNum → JsNum → Bool
  | .fin a, .fin b => decide (a ≤ b)
  | .nan, _ => false
  | _, .nan => false
  | .ninf, _ => true
  | .inf, .inf => true
  | .inf, .ninf => false
  | .inf, .fin _ => false
  | .fin _, .inf => true
  | .fin _, .ninf => false

/-- Numeric equality; `NaN` is not equal to anything, including itself. -/
def eqB : JsNum → JsNum → Bool
  | .fin a, .fin b => decide (a = b)
  | .inf, .inf => true
  | .ninf, .ninf => true
  | _, _ => false

/-- The semantics of `Math.floor` on the number model. -/
def floorN : JsNum → JsNum
  | .fin q => .fin (⌊q⌋ : ℚ)
  | .nan => .nan
  | .inf => .inf
  | .ninf => .ninf

/-- The semantics of `Math.ceil` on the number model. -/
def ceilN : JsNum → JsNum
  | .fin q => .fin (⌈q⌉ : ℚ)
  | .nan => .nan
  | .inf => .inf
  | .ninf => .ninf

/-- The semantics of `Math.round` (round half toward positive infinity). -/
def roundN : JsNum → JsNum
  | .fin q => .fin (⌊q + 1/2⌋ : ℚ)
  | .nan => .nan
  | .inf => .inf
  | .ninf => .ninf

/-- The semantics of `Math.abs` on the number model. -/
def absN : JsNum → JsNum
  | .fin q => .fin |q|
  | .nan => .nan
  | .inf => .inf
  | .ninf => .inf

/-- The semantics of `Math.min` on two arguments; `NaN` propagates. -/
def minN : JsNum → JsNum → JsNum
  | .nan, _ => .nan
  | _, .nan => .nan
  | a, b => if a.leB b then a else b

/-- The semantics of `Math.max` on two arguments; `NaN` propagates. -/
def maxN : JsNum → JsNum → JsNum
  | .nan, _ => .nan
  | _, .nan => .nan
  | a, b => if a.leB b then b else a

end JsNum

/-- A JavaScript value as used by the expression engine and the property bags
of points and grid cells. -/
inductive JsVal where
  | num (n : JsNum)
  | str (s : String)
  | bool (b : Bool)
  | null
  | undef
  | arr (l : List JsVal)
  | obj (o : List (String × JsVal))
deriving Repr

mutual

/-- Boolean structural equality on JavaScript values. -/
def JsVal.beq : JsVal → JsVal → Bool
  | .num a, .num b => a = b
  | .str a, .str b => a = b
  | .bool a, .bool b => a = b
  | .null, .null => true
  | .undef, .undef => true
  | .arr a, .arr b => JsVal.beqList a b
  | .obj a, .obj b => JsVal.beqObj a b
  | _, _ => false

/-- Boolean structural equality on lists of JavaScript values. -/
def JsVal.beqList : List JsVal → List JsVal → Bool
  | [], [] => true
  | a :: as', b :: bs' => JsVal.beq a b && JsVal.beqList as' bs'
  | _, _ => false

/-- Boolean structural equality on object entry lists. -/
def JsVal.beqObj : List (String × JsVal) → List (String × JsVal) → Bool
  | [], [] => true
  | (ka, va) :: as', (kb, vb) :: bs' => ka = kb && JsVal.beq va vb && JsVal.beqObj as' bs'
  | _, _ => false

end

mutual

/-- Boolean equality on values agrees with propositional equality. -/
theorem JsVal.beq_iff : ∀ a b : JsVal, JsVal.beq a b = true ↔ a = b
  | .num a, .num b => by simp [JsVal.beq]
  | .str a, .str b => by simp [JsVal.beq]
  | .bool a, .bool b => by simp [JsVal.beq]
  | .null, .null => by simp [JsVal.beq]
  | .undef, .undef => by simp [JsVal.beq]
  | .arr a, .arr b => by
      rw [show JsVal.beq (.arr a) (.arr b) = JsVal.beqList a b from rfl]
      rw [JsVal.beqList_iff a b]; simp
  | .obj a, .obj b => by
      rw [show JsVal.beq (.obj a) (.obj b) = JsVal.beqObj a b from rfl]
      rw [JsVal.beqObj_iff a b]; simp
  | .num _, .str _ => by simp [JsVal.beq]
  | .num _, .bool _ => by simp [JsVal.beq]
  | .num _, .null => by simp [JsVal.beq]
  | .num _, .undef => by simp [JsVal.beq]
  | .num _, .arr _ => by simp [JsVal.beq]
  | .num _, .obj _ => by simp [JsVal.beq]
  | .str _, .num _ => by simp [JsVal.beq]
  | .str _, .bool _ => by simp [JsVal.beq]
  | .str _, .null => by simp [JsVal.beq]
  | .str _, .undef => by simp [JsVal.beq]
  | .str _, .arr _ => by simp [JsVal.beq]
  | .str _, .obj _ => by simp [JsVal.beq]
  | .bool _, .num _ => by simp [JsVal.beq]
  | .bool _, .str _ => by simp [JsVal.beq]
  | .bool _, .null => by simp [JsVal.beq]
  | .bool _, .undef => by simp [JsVal.beq]
  | .bool _, .arr _ => by simp [JsVal.beq]
  | .bool _, .obj _ => by simp [JsVal.beq]
  | .null, .num _ => by simp [JsVal.beq]
  | .null, .str _ => by simp [JsVal.beq]
  | .null, .bool _ => by simp [JsVal.beq]
  | .null, .undef => by simp [JsVal.beq]
  | .null, .arr _ => by simp [JsVal.beq]
  | .null, .obj _ => by simp [JsVal.beq]
  | .undef, .num _ => by simp [JsVal.beq]
  | .undef, .str _ => by simp [JsVal.beq]
  | .undef, .bool _ => by simp [JsVal.beq]
  | .undef, .null => by simp [JsVal.beq]
  | .undef, .arr _ => by simp [JsVal.beq]
  | .undef, .obj _ => by simp [JsVal.beq]
  | .arr _, .num _ => by simp [JsVal.beq]
  | .arr _, .str _ => by simp [JsVal.beq]
  | .arr _, .bool _ => by simp [JsVal.beq]
  | .arr _, .null => by simp [JsVal.beq]
  | .arr _, .undef => by simp [JsVal.beq]
  | .arr _, .obj _ => by simp [JsVal.beq]
  | .obj _, .num _ => by simp [JsVal.beq]
  | .obj _, .str _ => by simp [JsVal.beq]
  | .obj _, .bool _ => by simp [JsVal.beq]
  | .obj _, .null => by simp [JsVal.beq]
  | .obj _, .undef => by simp [JsVal.beq]
  | .obj _, .arr _ => by simp [JsVal.beq]

/-- Boolean equality on value lists agrees with propositional equality. -/
theorem JsVal.beqList_iff : ∀ a b : List JsVal, JsVal.beqList a b = true ↔ a = b
  | [], [] => by simp [JsVal.beqList]
  | a :: as', b :: bs' => by
      rw [show JsVal.beqList (a :: as') (b :: bs') =
            (JsVal.beq a b && JsVal.beqList as' bs') from rfl]
      rw [Bool.and_eq_true, JsVal.beq_iff a b, JsVal.beqList_iff as' bs']
      simp
  | [], _ :: _ => by simp [JsVal.beqList]
  | _ :: _, [] => by simp [JsVal.beqList]

/-- Boolean equality on object entry lists agrees with propositional
equality. -/
theorem JsVal.beqObj_iff :
    ∀ a b : List (String × JsVal), JsVal.beqObj a b = true ↔ a = b
  | [], [] => by simp [JsVal.beqObj]
  | (ka, va) :: as', (kb, vb) :: bs' => by
      rw [show JsVal.beqObj ((ka, va) :: as') ((kb, vb) :: bs') =
            (decide (ka = kb) && JsVal.beq va vb && JsVal.beqObj as' bs') from rfl]
      rw [Bool.and_eq_true, Bool.and_eq_true, JsVal.beq_iff va vb,
        JsVal.beqObj_iff as' bs']
      simp
  | [], _ :: _ => by simp [JsVal.beqObj]
  | _ :: _, [] => by simp [JsVal.beqObj]

end

instance : DecidableEq JsVal := fun a b => decidable_of_iff _ (JsVal.beq_iff a b)

mutual

/-- Structural size of a value, ignoring scalar payloads.  Used to seed the
fuel of the fuelled parser so that the fuel never runs out on a value's own
sub-structure, and so that the size of a value whose scalar leaves are
symbolic still reduces to a numeral. -/
def JsVal.size : JsVal → ℕ
  | .num _ => 1
  | .str _ => 1
  | .bool _ => 1
  | .null => 1
  | .undef => 1
  | .arr l => 1 + JsVal.sizeList l
  | .obj o => 1 + JsVal.sizeObj o

/-- Structural size of a list of values (see `JsVal.size`). -/
def JsVal.sizeList : List JsVal → ℕ
  | [] => 0
  | v :: vs => JsVal.size v + JsVal.sizeList vs + 1

/-- Structural size of the entry list of an object (see `JsVal.size`). -/
def JsVal.sizeObj : List (String × JsVal) → ℕ
  | [] => 0
  | (_, v) :: vs => JsVal.size v + JsVal.sizeObj vs + 1

end

/-- The smallest exponent `k ≤ 30` such that `den` divides `10 ^ k`, if any. -/
def decExponent (den : ℕ) : Option ℕ := (List.range 31).find? (fun k => den ∣ 10 ^ k)

/-- Pad a digit string on the left with zeros up to width `k`. -/
def padZeros (s : String) (k : ℕ) : String :=
  String.mk (List.replicate (k - s.length) '0') ++ s

/-- Decimal rendering of a rational, matching how JavaScript prints the exact
numbers that occur in this code base (integers and finite decimal fractions;
the grid code only ever prints integers and halves).  A rational with no
finite decimal expansion is rendered as a fraction; that case is unreachable
from the embedded code. -/
def qToString (q : ℚ) : String :=
  if q.den = 1 then toString q.num
  else
    match decExponent q.den with
    | some k =>
        let n := q.num.natAbs * (10 ^ k / q.den)
        (if q.num < 0 then "-" else "") ++ toString (n / 10 ^ k) ++ "." ++
          padZeros (toString (n % 10 ^ k)) k
    | none => toString q.num ++ "/" ++ toString q.den

/-- String rendering of a JavaScript number. -/
def numToString : JsNum → String
  | .fin q => qToString q
  | .nan => "NaN"
  | .inf => "Infinity"
  | .ninf => "-Infinity"

mutual

/-- JavaScript string conversion of a value. -/
def jsToString : JsVal → String
  | .num n => numToString n
  | .str s => s
  | .bool b => if b then "true" else "false"
  | .null => "null"
  | .undef => "undefined"
  | .arr l => jsToStringArr l
  | .obj _ => "[object Object]"

/-- String conversion of an array: elements joined by commas, with `null` and
`undefined` elements rendered as empty strings. -/
def jsToStringArr : List JsVal → String
  | [] => ""
  | [.null] => ""
  | [.undef] => ""
  | [v] => jsToString v
  | .null :: vs => "," ++ jsToStringArr vs
  | .undef :: vs => "," ++ jsToStringArr vs
  | v :: vs => jsToString v ++ "," ++ jsToStringArr vs

end

/-- JavaScript truthiness of a value. -/
def jsTruthy : JsVal → Bool
  | .num (.fin q) => q ≠ 0
  | .num .nan => false
  | .num .inf => true
  | .num .ninf => true
  | .str s => s ≠ ""
  | .bool b => b
  | .null => false
  | .undef => false
  | .arr _ => true
  | .obj _ => true

/-- The transcendental functions, constants and string parsers of the
JavaScript `Math`/`Number` machinery, kept opaque.  All embedded definitions
that feed into them take a `JsMath` argument; no claim under verification
depends on the values of these fields. -/
structure JsMath where
  sin : ℚ → ℚ
  cos : ℚ → ℚ
  tan : ℚ → ℚ
  asin : ℚ → ℚ
  acos : ℚ → ℚ
  atan : ℚ → ℚ
  sqrt : ℚ → ℚ
  exp : ℚ → ℚ
  log : ℚ → ℚ
  pow : ℚ → ℚ → ℚ
  pi : ℚ
  ln2 : ℚ
  ln10 : ℚ
  toNumStr : String → JsNum
  parseFloatStr : String → JsNum

/-- Lift an opaque real function to the number model.  JavaScript's `Math`
functions return various values on non-finite arguments; those cases are
modelled as `NaN` and are not exercised by any claim. -/
def liftMath (f : ℚ → ℚ) : JsNum → JsNum
  | .fin q => .fin (f q)
  | _ => .nan

/-- The `ToNumber` coercion.  Arrays and plain objects coerce through their
string form in JavaScript; that corner is modelled as `NaN` and is not
exercised by any claim. -/
def JsVal.toNum (jm : JsMath) : JsVal → JsNum
  | .num n => n
  | .bool b => .fin (if b then 1 else 0)
  | .null => .fin 0
  | .undef => .nan
  | .str s => jm.toNumStr s
  | .arr _ => .nan
  | .obj _ => .nan

/-- Operands that make the JavaScript `+` operator concatenate. -/
def isStringish : JsVal → Bool
  | .str _ => true
  | .arr _ => true
  | .obj _ => true
  | _ => false

/-- The JavaScript `+` operator: string concatenation when either operand is
string-like, numeric addition otherwise. -/
def jsAdd (jm : JsMath) (a b : JsVal) : JsVal :=
  if isStringish a || isStringish b then .str (jsToString a ++ jsToString b)
  else .num ((a.toNum jm).add (b.toNum jm))

/-- The JavaScript `-` operator. -/
def jsSub (jm : JsMath) (a b : JsVal) : JsVal := .num ((a.toNum jm).sub (b.toNum jm))

/-- The JavaScript `*` operator. -/
def jsMul (jm : JsMath) (a b : JsVal) : JsVal := .num ((a.toNum jm).mul (b.toNum jm))

/-- The JavaScript `/` operator. -/
def jsDiv (jm : JsMath) (a b : JsVal) : JsVal := .num ((a.toNum jm).div (b.toNum jm))

/-- The JavaScript `%` operator. -/
def jsMod (jm : JsMath) (a b : JsVal) : JsVal := .num ((a.toNum jm).mod (b.toNum jm))

/-- The semantics of `Math.pow`; the base and exponent are coerced to numbers
and the finite case is delegated to the opaque `pow` parameter.  Cases with a
non-finite operand (and the `pow(x, 0) = 1` special cases) are modelled as
`NaN`; no claim exercises them. -/
def jsPowV (jm : JsMath) (a b : JsVal) : JsVal :=
  match a.toNum jm, b.toNum jm with
  | .fin x, .fin y => .num (.fin (jm.pow x y))
  | _, _ => .num .nan

/-- The JavaScript `<` operator: lexicographic on two strings, numeric
otherwise (array/object operands coerce through strings in JavaScript; that
corner is modelled through `ToNumber` and is not exercised by any claim). -/
def jsLtB (jm : JsMath) (a b : JsVal) : Bool :=
  match a, b with
  | .str x, .str y => decide (x < y)
  | _, _ => (a.toNum jm).ltB (b.toNum jm)

/-- The JavaScript `<=` operator (see `jsLtB`). -/
def jsLeB (jm : JsMath) (a b : JsVal) : Bool :=
  match a, b with
  | .str x, .str y => decide (x ≤ y)
  | _, _ => (a.toNum jm).leB (b.toNum jm)

/-- The JavaScript `>` operator (see `jsLtB`). -/
def jsGtB (jm : JsMath) (a b : JsVal) : Bool := jsLtB jm b a

/-- The JavaScript `>=` operator (see `jsLtB`). -/
def jsGeB (jm : JsMath) (a b : JsVal) : Bool := jsLeB jm b a

/-- The JavaScript strict equality `===`.  Objects and arrays compare by
reference in JavaScript; distinct evaluation results are modelled as unequal,
and no claim compares object values. -/
def jsStrictEqB : JsVal → JsVal → Bool
  | .num x, .num y => x.eqB y
  | .str x, .str y => x = y
  | .bool x, .bool y => x = y
  | .null, .null => true
  | .undef, .undef => true
  | _, _ => false

/-- The JavaScript loose equality `==`.  The object/array cases (which coerce
through `ToPrimitive` or compare references) are modelled as unequal; no
claim compares object values loosely. -/
def jsLooseEqB (jm : JsMath) : JsVal → JsVal → Bool
  | .num x, .num y => x.eqB y
  | .str x, .str y => x = y
  | .bool x, .bool y => x = y
  | .null, .null => true
  | .undef, .undef => true
  | .null, .undef => true
  | .undef, .null => true
  | .num x, .str s => x.eqB (jm.toNumStr s)
  | .str s, .num y => (jm.toNumStr s).eqB y
  | .bool x, .num y => (JsNum.fin (if x then 1 else 0)).eqB y
  | .num x, .bool y => x.eqB (.fin (if y then 1 else 0))
  | .bool x, .str s => (JsNum.fin (if x then 1 else 0)).eqB (jm.toNumStr s)
  | .str s, .bool y => (jm.toNumStr s).eqB (.fin (if y then 1 else 0))
  | _, _ => false

/-- The JavaScript `typeof` operator's result string. -/
def typeName : JsVal → String
  | .num _ => "number"
  | .str _ => "string"
  | .bool _ => "boolean"
  | .null => "object"
  | .undef => "undefined"
  | .arr _ => "object"
  | .obj _ => "object"

/-- Property read `o[k]`.  Reading from `null`/`undefined` throws; a missing
property yields `undefined`; arrays expose their elements under canonical
index keys and `length`; strings expose characters and `length`; number and
boolean primitives have no own properties. -/
def jsIndex (o k : JsVal) : Except String JsVal :=
  match o with
  | .null => .error "TypeError: cannot read properties of null"
  | .undef => .error "TypeError: cannot read properties of undefined"
  | .obj props => .ok ((props.lookup (jsToString k)).getD .undef)
  | .arr l =>
      let ks := jsToString k
      if ks = "length" then .ok (.num (.fin l.length))
      else
        match ks.toNat? with
        | some i => if i < l.length then .ok (l.getD i .undef) else .ok .undef
        | none => .ok .undef
  | .str s =>
      let ks := jsToString k
      if ks = "length" then .ok (.num (.fin s.length))
      else
        match ks.toNat? with
        | some i =>
            if i < s.length then .ok (.str (String.mk [s.data.getD i ' ']))
            else .ok .undef
        | none => .ok .undef
  | _ => .ok JsVal.undef

/-- The key list produced by `Object.keys`.  Keys of objects come in
insertion order (the keys used by this code base are never integer-like, so
JavaScript's integer-key reordering does not apply); arrays and strings
expose their index keys; other primitives have no keys; `null`/`undefined`
throw. -/
def jsKeys : JsVal → Except String (List String)
  | .obj o => .ok (o.map (·.1))
  | .arr l => .ok ((List.range l.length).map (fun i => toString i))
  | .str s => .ok ((List.range s.length).map (fun i => toString i))
  | .null => .error "TypeError: Object.keys called on null"
  | .undef => .error "TypeError: Object.keys called on undefined"
  | _ => .ok []

/-- The `ToIntegerOrInfinity` coercion used by `indexOf`/`slice` arguments,
with infinities clamped to the maximum safe integer (harmless for the index
arithmetic here). -/
def jsToIntegerZ (jm : JsMath) (v : JsVal) : ℤ :=
  match v.toNum jm with
  | .fin q => JsNum.ratTrunc q
  | .nan => 0
  | .inf => 9007199254740991
  | .ninf => -9007199254740991

/-- `Array.prototype.indexOf` with a start index: first position at or after
the (negative-wrapping) start whose element is strictly equal to `v`, else
`-1`. -/
def arrIndexOfFrom (l : List JsVal) (v : JsVal) (frm : ℤ) : ℤ :=
  let start : ℤ := if frm < 0 then max 0 ((l.length : ℤ) + frm) else frm
  match (List.range l.length).find?
      (fun i => decide (start ≤ Int.ofNat i) && jsStrictEqB (l.getD i .undef) v) with
  | some i => (i : ℤ)
  | none => -1

/-- `String.prototype.indexOf` with a start index: first position at or after
the clamped start where `sub` occurs as a substring, else `-1`. -/
def strIndexOfFrom (s sub : String) (frm : ℤ) : ℤ :=
  let start : ℕ := (max 0 (min frm (s.length : ℤ))).toNat
  match (List.range (s.length + 1)).find?
      (fun i => decide (start ≤ i) && sub.data.isPrefixOf (s.data.drop i)) with
  | some i => (i : ℤ)
  | none => -1

/-- Dispatch of `.indexOf(v, frm)` on an evaluated receiver: array search,
substring search, or a `TypeError` for receivers without an `indexOf`
method. -/
def jsIndexOf (jm : JsMath) (target v frm : JsVal) : Except String JsVal :=
  match target with
  | .arr l => .ok (.num (.fin (arrIndexOfFrom l v (jsToIntegerZ jm frm))))
  | .str s => .ok (.num (.fin (strIndexOfFrom s (jsToString v) (jsToIntegerZ jm frm))))
  | _ => .error "TypeError: indexOf is not a function"

/-- Normalisation of one `slice` bound against a length (negative bounds wrap
from the end, others clamp to the length). -/
def sliceBound (len : ℕ) (x : ℤ) : ℕ :=
  if x < 0 then (max 0 ((len : ℤ) + x)).toNat else (min x (len : ℤ)).toNat

/-- Dispatch of `.slice(s, e)` on an evaluated receiver; an `undefined` end
bound means the end of the receiver. -/
def jsSlice (jm : JsMath) (v s e : JsVal) : Except String JsVal :=
  match v with
  | .arr l =>
      let a := sliceBound l.length (jsToIntegerZ jm s)
      let b := sliceBound l.length (if e = .undef then (l.length : ℤ) else jsToIntegerZ jm e)
      .ok (.arr ((l.drop a).take (b - a)))
  | .str str =>
      let a := sliceBound str.length (jsToIntegerZ jm s)
      let b := sliceBound str.length (if e = .undef then (str.length : ℤ) else jsToIntegerZ jm e)
      .ok (.str (String.mk ((str.data.drop a).take (b - a))))
  | _ => .error "TypeError: slice is not a function"

/-- The semantics of `Math.min` on two JavaScript values. -/
def jsMathMin (jm : JsMath) (a b : JsVal) : JsVal := .num (JsNum.minN (a.toNum jm) (b.toNum jm))

/-- The semantics of `Math.max` on two JavaScript values. -/
def jsMathMax (jm : JsMath) (a b : JsVal) : JsVal := .num (JsNum.maxN (a.toNum jm) (b.toNum jm))

/-- Update the first occurrence of a key in an association list, or append the
binding; the semantics of `o[k] = v` on the object model. -/
def assocSet {α : Type} : List (String × α) → String → α → List (String × α)
  | [], k, v => [(k, v)]
  | (k0, v0) :: rest, k, v =>
      if k0 = k then (k0, v) :: rest else (k0, v0) :: assocSet rest k v

mutual

/-- The parsed expression AST of the expression engine: one constructor per
parser class of the `Expressions` dispatch table.  Scalar slots that the
source stores unchecked (operator names, property names, raw labels and
outputs) are kept as raw values. -/
inductive Exp where
  | literal (v : JsVal)
  | get (n : JsVal) (e : Option Exp)
  | has (n : JsVal) (e : Option Exp)
  | atE (i : JsVal) (e : Exp)
  | indexOf (v : JsVal) (e : Exp) (i : JsVal)
  | length (e : Exp)
  | slice (v : Exp) (s : JsVal) (e : JsVal)
  | not (e : Exp)
  | comparison (c : String) (e1 e2 : Exp)
  | toBooleanE (e : Exp)
  | toNumberE (e : Exp)
  | toStringE (e : Exp)
  | typeofE (e : Exp)
  | caseE (conds : List Exp) (outs : List JsVal) (fallback : JsVal)
  | matchE (input : Exp) (labels : List JsVal) (outs : List JsVal) (fallback : JsVal)
  | stepE (input : Exp) (labels : List JsVal) (outs : List JsVal)
  | inE (i : JsVal) (e : Exp)
  | allE (es : List Exp)
  | anyE (es : List Exp)
  | math (o : String) (args : List MathArg)

/-- One element of a `MathExp` argument vector: either a raw value pushed
without parsing, or a parsed sub-expression (see `MathExp.parse`). -/
inductive MathArg where
  | raw (v : JsVal)
  | exp (e : Exp)

end

mutual

/-- Structural size of an expression, an upper bound on its evaluation
depth.  Used to seed the evaluator's fuel. -/
def Exp.esize : Exp → ℕ
  | .literal _ => 1
  | .get _ e => 1 + Exp.esizeOpt e
  | .has _ e => 1 + Exp.esizeOpt e
  | .atE _ e => 1 + Exp.esize e
  | .indexOf _ e _ => 1 + Exp.esize e
  | .length e => 1 + Exp.esize e
  | .slice e _ _ => 1 + Exp.esize e
  | .not e => 1 + Exp.esize e
  | .comparison _ a b => 1 + Exp.esize a + Exp.esize b
  | .toBooleanE e => 1 + Exp.esize e
  | .toNumberE e => 1 + Exp.esize e
  | .toStringE e => 1 + Exp.esize e
  | .typeofE e => 1 + Exp.esize e
  | .caseE conds _ _ => 1 + Exp.esizeList conds
  | .matchE input _ _ _ => 1 + Exp.esize input
  | .stepE input _ _ => 1 + Exp.esize input
  | .inE _ e => 1 + Exp.esize e
  | .allE es => 1 + Exp.esizeList es
  | .anyE es => 1 + Exp.esizeList es
  | .math _ args => 1 + Exp.esizeArgs args

/-- Structural size of an expression list (see `Exp.esize`). -/
def Exp.esizeOpt : Option Exp → ℕ
  | none => 0
  | some e => 1 + Exp.esize e

/-- Structural size of an expression list (see `Exp.esize`). -/
def Exp.esizeList : List Exp → ℕ
  | [] => 0
  | e :: es => 1 + Exp.esize e + Exp.esizeList es

/-- Structural size of a math argument vector (see `Exp.esize`). -/
def Exp.esizeArgs : List MathArg → ℕ
  | [] => 0
  | .raw _ :: es => 1 + Exp.esizeArgs es
  | .exp e :: es => 1 + Exp.esize e + Exp.esizeArgs es

end

/-- The fuelled expression parser, mirroring `Expression.parse` and the
per-operator `parse` methods of the `Expressions` dispatch table: a non-array
parses as a literal of itself, an array dispatches on its first element, and
an unknown tag or failed arity check throws.  `l.getD i .undef` models the
out-of-bounds array read `exp[i]` yielding `undefined`. -/
def parseF : ℕ → JsVal → Except String Exp
  | 0, _ => .error "Invalid expression"
  | fuel + 1, v =>
    match v with
    | .arr [] => .error "Invalid expression"
    | .arr (tag :: rest) =>
      match tag with
      | .str t =>
        let l : List JsVal := .str t :: rest
        match t with
        | "get" => do
            let e ← if 3 ≤ l.length then (parseF fuel (l.getD 2 .undef)).map some
                    else pure none
            if 2 ≤ l.length then pure (Exp.get (l.getD 1 .undef) e)
            else throw "Invalid 'get' expression."
        | "has" => do
            let e ← if 3 ≤ l.length then (parseF fuel (l.getD 2 .undef)).map some
                    else pure none
            if 2 ≤ l.length then pure (Exp.has (l.getD 1 .undef) e)
            else throw "Invalid 'has' expression."
        | "literal" =>
            if 2 ≤ l.length then pure (Exp.literal (l.getD 1 .undef))
            else throw "Invalid 'literal' expression."
        | "at" =>
            if 3 ≤ l.length then (parseF fuel (l.getD 2 .undef)).map (Exp.atE (l.getD 1 .undef))
            else throw "Invalid 'at' expression."
        | "index-of" =>
            let idx : JsVal := if 4 ≤ l.length then l.getD 3 .undef else .num (.fin 0)
            if 3 ≤ l.length then
              (parseF fuel (l.getD 2 .undef)).map (fun e => Exp.indexOf (l.getD 1 .undef) e idx)
            else throw "Invalid 'index-of' expression."
        | "length" =>
            -- the source's arity check for `length` really is `exp.length >= 3`
            if 3 ≤ l.length then (parseF fuel (l.getD 1 .undef)).map Exp.length
            else throw "Invalid 'length' expression."
        | "slice" =>
            let idx : JsVal := if 4 ≤ l.length then l.getD 3 .undef else .undef
            if 3 ≤ l.length then
              (parseF fuel (l.getD 1 .undef)).map (fun e => Exp.slice e (l.getD 2 .undef) idx)
            else throw "Invalid 'index-of' expression."
        | "!" =>
            if 2 ≤ l.length then (parseF fuel (l.getD 1 .undef)).map Exp.not
            else throw "Invalid '!' expression."
        | "!=" | "<" | "<=" | "==" | ">" | ">=" =>
            if 3 ≤ l.length then do
              let e1 ← parseF fuel (l.getD 1 .undef)
              let e2 ← parseF fuel (l.getD 2 .undef)
              pure (Exp.comparison t e1 e2)
            else throw "Invalid comparison expression."
        | "to-boolean" =>
            if 2 ≤ l.length then (parseF fuel (l.getD 1 .undef)).map Exp.toBooleanE
            else throw "Invalid 'to-boolean' expression."
        | "to-number" =>
            if 2 ≤ l.length then (parseF fuel (l.getD 1 .undef)).map Exp.toNumberE
            else throw "Invalid 'to-number' expression."
        | "to-string" =>
            if 2 ≤ l.length then (parseF fuel (l.getD 1 .undef)).map Exp.toStringE
            else throw "Invalid 'to-number' expression."
        | "typeof" =>
            if 2 ≤ l.length then (parseF fuel (l.getD 1 .undef)).map Exp.typeofE
            else throw "Invalid 'typeOf' expression."
        | "case" =>
            -- the parse loop runs `i = 1, 3, ...` up to `exp.length - 1`, so the
            -- trailing fallback is also consumed as a condition whose paired
            -- output is the out-of-bounds read `exp[exp.length]` (undefined)
            if 3 ≤ l.length ∧ l.length % 2 = 0 then do
              let idxs := (List.range l.length).filter (fun i => i % 2 = 1)
              let conds ← idxs.mapM (fun i => parseF fuel (l.getD i .undef))
              let outs := idxs.map (fun i => l.getD (i + 1) .undef)
              pure (Exp.caseE conds outs (l.getD (l.length - 1) .undef))
            else throw "Invalid 'case' expression."
        | "match" =>
            if 5 ≤ l.length ∧ l.length % 2 = 1 then do
              let input ← parseF fuel (l.getD 1 .undef)
              let idxs := (List.range (l.length - 1)).filter (fun i => 2 ≤ i ∧ i % 2 = 0)
              pure (Exp.matchE input (idxs.map (fun i => l.getD i .undef))
                (idxs.map (fun i => l.getD (i + 1) .undef)) (l.getD (l.length - 1) .undef))
            else throw "Invalid 'match' expression."
        | "step" =>
            if 5 ≤ l.length ∧ l.length % 2 = 1 then do
              let input ← parseF fuel (l.getD 1 .undef)
              let idxs := (List.range l.length).filter (fun i => 3 ≤ i ∧ i % 2 = 1)
              pure (Exp.stepE input (idxs.map (fun i => l.getD i .undef))
                (l.getD 2 .undef :: idxs.map (fun i => l.getD (i + 1) .undef)))
            else throw "Invalid 'step' expression."
        | "in" =>
            if 3 ≤ l.length then (parseF fuel (l.getD 2 .undef)).map (Exp.inE (l.getD 1 .undef))
            else throw "Invalid 'at' expression."
        | "all" =>
            if 3 ≤ l.length ∧ l.length % 2 = 0 then
              ((l.drop 1).mapM (parseF fuel)).map Exp.allE
            else throw "Invalid 'all' expression."
        | "any" =>
            if 3 ≤ l.length ∧ l.length % 2 = 0 then
              ((l.drop 1).mapM (parseF fuel)).map Exp.anyE
            else throw "Invalid 'any' expression."
        | "+" | "*" | "min" | "max" | "-" | "/" | "%" | "^" | "abs" | "acos" | "asin"
        | "atan" | "ceil" | "cos" | "e" | "floor" | "ln" | "ln2" | "log10" | "log2"
        | "pi" | "round" | "sin" | "sqrt" | "tan" =>
            -- `MathExp.parse` requires `exp.length >= 3`, and its loop tests
            -- `Array.isArray(exp[1])` (not `exp[i]`) for every argument
            if 3 ≤ l.length then
              match l.getD 1 .undef with
              | .arr _ => ((l.drop 1).mapM (fun w => (parseF fuel w).map MathArg.exp)).map (Exp.math t)
              | _ => pure (Exp.math t ((l.drop 1).map MathArg.raw))
            else throw "Invalid math expression."
        | _ => .error "Invalid expression"
      | _ => .error "Invalid expression"
    | nonArr => .ok (Exp.literal nonArr)

/-- The top-level `Expression.parse`: fuel seeded from the structural size of
the input, which always dominates its nesting depth. -/
def Expression.parse (v : JsVal) : Except String Exp := parseF (v.size + 1) v

/-- The fuelled evaluator, mirroring the `eval` methods of the expression
classes against a context value (the property bag).  The local `getV` closure
is the semantics of `MathExp._getValue`: a raw numeric argument passes
through, a raw non-number raises the `TypeError` of calling `.eval` on it,
and a parsed sub-expression is evaluated. -/
def evalF (jm : JsMath) : ℕ → Exp → JsVal → Except String JsVal
  | 0, _, _ => .error "evaluation fuel exhausted"
  | fuel + 1, e, val =>
    match e with
    | .literal v => .ok v
    | .get n oe => do
        let o ← match oe with
          | none => pure val
          | some e2 => evalF jm fuel e2 val
        jsIndex o n
    | .has n oe => do
        let o ← match oe with
          | none => pure val
          | some e2 => do
              let t ← evalF jm fuel e2 val
              jsIndex t n
        let keys ← jsKeys o
        match n with
        | .str s => pure (.bool (keys.contains s))
        | _ => pure (.bool false)
    | .atE i e2 => do
        let v ← evalF jm fuel e2 val
        jsIndex v i
    | .indexOf v e2 i => do
        let t ← evalF jm fuel e2 val
        jsIndexOf jm t v i
    | .length e2 => do
        let v ← evalF jm fuel e2 val
        jsIndex v (.str "length")
    | .slice ve s en => do
        let v ← evalF jm fuel ve val
        jsSlice jm v s en
    | .not e2 => do
        let v ← evalF jm fuel e2 val
        pure (.bool (!jsTruthy v))
    | .comparison c e1 e2 => do
        let v1 ← evalF jm fuel e1 val
        let v2 ← evalF jm fuel e2 val
        match c with
        | "<" => pure (.bool (jsLtB jm v1 v2))
        | "<=" => pure (.bool (jsLeB jm v1 v2))
        | "==" => pure (.bool (jsLooseEqB jm v1 v2))
        | "!=" => pure (.bool (!jsLooseEqB jm v1 v2))
        | ">" => pure (.bool (jsGtB jm v1 v2))
        | ">=" => pure (.bool (jsGeB jm v1 v2))
        | _ => .error "Invalid comparison"
    | .toBooleanE e2 => do
        let v ← evalF jm fuel e2 val
        match v with
        | .bool b => pure (.bool b)
        | .str s => pure (.bool (["true", "yes", "on", "1"].contains s.toLower))
        | .num n => pure (.bool (n.eqB (.fin 1)))
        | _ => pure (.bool false)
    | .toNumberE e2 => do
        let v ← evalF jm fuel e2 val
        match v with
        | .bool b => pure (.num (.fin (if b then 1 else 0)))
        | .str s => pure (.num (jm.parseFloatStr s))
        | .num n => pure (.num n)
        | _ => pure (.num .nan)
    | .toStringE e2 => do
        let v ← evalF jm fuel e2 val
        match v with
        | .null => .error "TypeError: cannot read toString of null"
        | .undef => .error "TypeError: cannot read toString of undefined"
        | v2 => pure (.str (jsToString v2))
    | .typeofE e2 => do
        let v ← evalF jm fuel e2 val
        pure (.str (typeName v))
    | .caseE conds outs fallback => do
        -- each condition is evaluated in order until one is truthy; later
        -- conditions are then no longer evaluated
        let r ← conds.enum.foldlM
            (fun (acc : Option JsVal) (p : ℕ × Exp) =>
              match acc with
              | some r => pure (some r)
              | none => do
                  let c ← evalF jm fuel p.2 val
                  if jsTruthy c then pure (some (outs.getD p.1 .undef)) else pure none)
            none
        pure (r.getD fallback)
    | .matchE input labels outs fallback => do
        let v ← evalF jm fuel input val
        match labels.enum.find? (fun p => jsStrictEqB p.2 v) with
        | some p => pure (outs.getD p.1 .undef)
        | none => pure fallback
    | .stepE input labels outs => do
        let v ← evalF jm fuel input val
        match labels.enum.find? (fun p => jsLeB jm v p.2) with
        | some p => pure (outs.getD p.1 .undef)
        | none => pure (outs.getLastD .undef)
    | .inE i e2 => do
        let t ← evalF jm fuel e2 val
        let r ← jsIndexOf jm t i (.num (.fin 0))
        match r with
        | .num n => pure (.bool ((JsNum.fin (-1)).ltB n))
        | _ => pure (.bool false)
    | .allE es =>
        -- `state = state && e.eval(val)`: once falsy, later operands are no
        -- longer evaluated, but the iteration itself continues
        es.foldlM
          (fun state e2 => if jsTruthy state then evalF jm fuel e2 val else pure state)
          (JsVal.bool true)
    | .anyE es =>
        es.foldlM
          (fun state e2 => if jsTruthy state then pure state else evalF jm fuel e2 val)
          (JsVal.bool false)
    | .math o args => do
        let getV : MathArg → Except String JsVal := fun a =>
          match a with
          | .raw (.num n) => pure (.num n)
          | .raw _ => .error "TypeError: eval is not a function"
          | .exp e2 => evalF jm fuel e2 val
        -- `v1`/`v2` are computed before the switch dispatches on the operator
        let v1 ← if 1 ≤ args.length then getV (args.getD 0 (.raw .undef))
                 else pure (JsVal.num (.fin 0))
        let v2 ← if 2 ≤ args.length then getV (args.getD 1 (.raw .undef))
                 else pure (JsVal.num (.fin 0))
        match o with
        | "+" => do
            -- the n-ary branch calls `_evalArray` and then `break`s out of the
            -- switch, falling through to the trailing `throw`: the fold's
            -- result is discarded and the evaluation always fails (after
            -- raising any evaluation error of the operands first)
            let _ ← args.foldlM (fun total a => do
                let w ← getV a
                pure (jsAdd jm total w)) (JsVal.num (.fin 0))
            .error "Invalid math expression."
        | "*" => do
            let _ ← args.foldlM (fun total a => do
                let w ← getV a
                pure (jsMul jm total w)) (JsVal.num (.fin 1))
            .error "Invalid math expression."
        | "max" => do
            let init ← getV (args.getD 0 (.raw .undef))
            let _ ← args.foldlM (fun total a => do
                let w ← getV a
                pure (jsMathMax jm total w)) init
            .error "Invalid math expression."
        | "min" => do
            let init ← getV (args.getD 0 (.raw .undef))
            let _ ← args.foldlM (fun total a => do
                let w ← getV a
                pure (jsMathMin jm total w)) init
            .error "Invalid math expression."
        | "-" => pure (jsSub jm v2 v1)
        | "/" => pure (jsDiv jm v1 v2)
        | "%" => pure (jsMod jm v1 v2)
        | "^" => pure (jsPowV jm v1 v2)
        | "abs" => pure (.num (JsNum.absN (v1.toNum jm)))
        | "acos" => pure (.num (liftMath jm.acos (v1.toNum jm)))
        | "asin" => pure (.num (liftMath jm.asin (v1.toNum jm)))
        | "atan" => pure (.num (liftMath jm.atan (v1.toNum jm)))
        | "ceil" => pure (.num (JsNum.ceilN (v1.toNum jm)))
        | "cos" => pure (.num (liftMath jm.cos (v1.toNum jm)))
        | "e" => pure (.num (liftMath jm.exp (v1.toNum jm)))
        | "floor" => pure (.num (JsNum.floorN (v1.toNum jm)))
        | "ln" => pure (.num (liftMath jm.log (v1.toNum jm)))
        | "ln2" => pure (.num (.fin jm.ln2))
        | "log10" => pure (.num ((liftMath jm.log (v1.toNum jm)).div (.fin jm.ln10)))
        | "log2" => pure (.num ((liftMath jm.log (v1.toNum jm)).div (.fin jm.ln2)))
        | "pi" => pure (.num (.fin jm.pi))
        | "round" => pure (.num (JsNum.roundN (v1.toNum jm)))
        | "sin" => pure (.num (liftMath jm.sin (v1.toNum jm)))
        | "sqrt" => pure (.num (liftMath jm.sqrt (v1.toNum jm)))
        | "tan" => pure (.num (liftMath jm.tan (v1.toNum jm)))
        | _ => .error "Invalid math expression."

/-- Top-level evaluation of a parsed expression: fuel seeded from the
structural size of the expression, which always dominates its depth. -/
def Exp.evalTop (jm : JsMath) (e : Exp) (val : JsVal) : Except String JsVal :=
  evalF jm (e.esize + 1) e val

/-- Properties of a grid cell polygon (the `CellInfo` interface).
`aggregateProperties` is `none` when the cell was created without aggregates
(the JavaScript property is `undefined`), `some` of an association list
otherwise. -/
structure CellInfo where
  cell_id : String
  point_count : ℕ
  point_count_abbreviated : String
  aggregateProperties : Option (List (String × JsVal))
  _x : ℚ
  _y : ℚ
  _rightSideUp : Option Bool
deriving DecidableEq, Repr

/-- An object that represents a range of values (the `ScaleRange` interface);
both bounds are `undefined` until the finalize pass first writes them.  The
source stores whatever scale value it saw first without coercion, so the
bounds are raw values. -/
structure ScaleRange where
  min : Option JsVal
  max : Option JsVal
deriving DecidableEq, Repr

/-- Cached sine/cosine tables for polygon vertex generation. -/
structure ArcAngles where
  sin : List ℚ
  cos : List ℚ
deriving DecidableEq, Repr

/-- A cell feature: `CellInfo` properties plus polygon ring geometry in
geographic coordinates. -/
structure Feature where
  properties : CellInfo
  geometry : List (List (ℚ × ℚ))
deriving DecidableEq, Repr

/-- Details about a grid system and the data points within (`GridInfo`).
JavaScript record objects become association lists with unique keys. -/
structure GridInfo where
  cells : List Feature
  cellLookupTable : List (String × ℕ)
  pointLookupTable : List (String × List ℕ)
  scaleMetrics : Option ScaleRange
  width : ℚ
  height : ℚ
deriving DecidableEq, Repr

/-- The gridded data source options.  The record is complete in the way the
data source's `_options` field is after construction: the scalar fields
always carry a value, while the three fields that the option defaults do not
populate are `Option`s (`none` models an absent/undefined key). -/
structure GriddedDataSourceOptions where
  gridType : String
  cellWidth : ℚ
  minCellWidth : ℚ
  distanceUnits : String
  coverage : ℚ
  centerLatitude : ℚ
  scaleProperty : Option String
  scaleExpression : Option JsVal
  aggregateProperties : Option (List (String × JsVal))
deriving DecidableEq, Repr

/-- Truthiness of an optional string option (an absent or empty string is
falsy). -/
def optStrTruthy : Option String → Bool
  | some s => s ≠ ""
  | none => false

/-- A parsed aggregate expression (`CellAggregateExpression`): operator slot,
parsed map expression and the raw initial-value slot (`none` when the
two-element form was parsed, so that the JavaScript field is `undefined`). -/
structure CellAggregateExpression where
  _o : JsVal
  _e : Exp
  _i : Option JsVal

/-- The parser of `CellAggregateExpression`: a three-or-more element array is
`[operator, initialValue, mapExpression]`, a two element array is
`[operator, mapExpression]`.  The callers only reach this with an array (a
string aggregate that passes the caller's length guard is not modelled; no
claim exercises it). -/
def CellAggregateExpression.parse (exp : JsVal) : Except String CellAggregateExpression :=
  match exp with
  | .arr l =>
      if 3 ≤ l.length then
        (Expression.parse (l.getD 2 .undef)).map
          (fun e => ⟨l.getD 0 .undef, e, some (l.getD 1 .undef)⟩)
      else if l.length = 2 then
        (Expression.parse (l.getD 1 .undef)).map (fun e => ⟨l.getD 0 .undef, e, none⟩)
      else .error "Invalid CellAggregateExpression."
  | _ => .error "Invalid CellAggregateExpression."

/-- Evaluation of an aggregate expression's map expression on a property
bag. -/
def CellAggregateExpression.eval (jm : JsMath) (a : CellAggregateExpression) (val : JsVal) :
    Except String JsVal :=
  Exp.evalTop jm a._e val

/-- The finalize step of an aggregate expression: if an initial value is
present (and not `undefined`), it is folded once more into the accumulated
value with the aggregate's operator, and the result is written back. -/
def CellAggregateExpression.finalize (jm : JsMath) (a : CellAggregateExpression)
    (properties : CellInfo) (key : String) : CellInfo :=
  match properties.aggregateProperties with
  | none => properties
  | some props =>
      let val := (props.lookup key).getD .undef
      let val :=
        match a._i with
        | none => val
        | some init =>
            if init = .undef then val
            else match a._o with
              | .str "max" => jsMathMax jm init val
              | .str "min" => jsMathMin jm init val
              | .str "+" => jsAdd jm init val
              | .str "*" => jsMul jm init val
              | .str "all" => if jsTruthy init then val else init
              | .str "any" => if jsTruthy init then init else val
              | _ => val
      { properties with aggregateProperties := some (assocSet props key val) }

/-- The parsing pass over the configured aggregate expressions
(`_parseMapExpressions`): an aggregate whose raw array is too short or fails
to parse is dropped (the source also blanks its key in the raw option record,
which only ever makes the per-point loop skip that key; dropping it from the
parsed map has the same effect there). -/
def _parseMapExpressions (aggregateProperties : List (String × JsVal)) :
    List (String × CellAggregateExpression) :=
  aggregateProperties.foldl
    (fun acc (ka : String × JsVal) =>
      match ka.2 with
      | .arr l =>
          if 2 ≤ l.length then
            match CellAggregateExpression.parse (.arr l) with
            | .ok e => acc ++ [(ka.1, e)]
            | .error _ => acc
          else acc
      | _ => acc)
    []

/-- The per-point update `_incrementCellInfo`: increments `point_count` and
folds each configured aggregate's evaluated map value into the cell's running
value.  On the first point of a cell the running value seeds from the raw
`agg[1]` slot when that slot is not an array (otherwise it stays `null` and
the first evaluated value is used unseeded); `null` previous values skip the
operator fold, and `null` new values are not written back. -/
def _incrementCellInfo (jm : JsMath) (cellInfo : CellInfo) (pointProperties : JsVal)
    (aggregateProperties : Option (List (String × JsVal)))
    (mapExpressions : List (String × CellAggregateExpression)) : Except String CellInfo := do
  let ci := { cellInfo with point_count := cellInfo.point_count + 1 }
  match aggregateProperties with
  | none => pure ci
  | some aggProps =>
      -- with an empty aggregate record the `forEach` body never runs, so the
      -- cell's `aggregateProperties` field is left untouched
      if aggProps.isEmpty then pure ci
      else do
        let count := ci.point_count
        let props0 := ci.aggregateProperties.getD []
        let props ← aggProps.foldlM
          (fun props (ka : String × JsVal) => do
            let key := ka.1
            let agg := ka.2
            match mapExpressions.lookup key with
            | none => pure props
            | some mapExp => do
                let newValue ← mapExp.eval jm pointProperties
                let prevValue : JsVal :=
                  if count = 1 then
                    match agg with
                    | .arr l =>
                        match l.getD 1 .undef with
                        | .arr _ => .null
                        | v => v
                    | _ => .undef
                  else (props.lookup key).getD .undef
                let newValue :=
                  if prevValue = .null then newValue
                  else
                    match agg with
                    | .arr l =>
                        match l.getD 0 .undef with
                        | .str "max" => if jsGtB jm prevValue newValue then prevValue else newValue
                        | .str "min" => if jsLtB jm prevValue newValue then prevValue else newValue
                        | .str "+" => jsAdd jm prevValue newValue
                        | .str "*" => jsMul jm prevValue newValue
                        | .str "all" => if jsTruthy prevValue then newValue else prevValue
                        | .str "any" => if jsTruthy prevValue then prevValue else newValue
                        | _ => newValue
                    | _ => newValue
                if newValue = .null then pure props
                else pure (assocSet props key newValue))
          props0
        pure { ci with aggregateProperties := some props }

/-- The rounding of `Math.round`: half rounds toward positive infinity. -/
def jsRound (q : ℚ) : ℤ := ⌊q + 1/2⌋

/-- The abbreviation of a point count computed by `_finalizeCellInfo`. -/
def pointCountAbbrev (count : ℕ) : String :=
  if 1000000 ≤ count then toString (jsRound ((count : ℚ) / 1000000)) ++ "M"
  else if 1000 ≤ count then toString (jsRound ((count : ℚ) / 1000)) ++ "k"
  else toString count

/-- The property updates of the per-cell finalize step `_finalizeCellInfo`:
format `point_count_abbreviated` and apply every aggregate's finalize fold.
The enclosing `if (aggregateExpressions)` of the source is always taken,
because the parsed map is always a (possibly empty) object. -/
def finalizeProps (jm : JsMath) (cellInfo : CellInfo)
    (aggregateExpressions : List (String × CellAggregateExpression)) : CellInfo :=
  aggregateExpressions.foldl
    (fun c (ke : String × CellAggregateExpression) => ke.2.finalize jm c ke.1)
    { cellInfo with point_count_abbreviated := pointCountAbbrev cellInfo.point_count }

/-- The per-cell finalize step `_finalizeCellInfo`: apply the property
updates (`finalizeProps`), pick the cell's scale-source value (the aggregate
value under `scaleProperty` when it is defined, the point count otherwise —
reading it throws when the cell has no aggregate record), and fold it into
the running scale metrics. -/
def _finalizeCellInfo (jm : JsMath) (cellInfo : CellInfo)
    (aggregateExpressions : List (String × CellAggregateExpression))
    (scaleMetrics : ScaleRange) (scaleProperty : Option String) :
    Except String (CellInfo × ScaleRange) := do
  let count := cellInfo.point_count
  let ci := finalizeProps jm cellInfo aggregateExpressions
  let scaleVal : JsVal ←
    if optStrTruthy scaleProperty then
      match ci.aggregateProperties with
      | none => .error "TypeError: cannot read properties of undefined"
      | some props =>
          match (props.lookup (scaleProperty.getD "")).getD .undef with
          | .undef => pure (JsVal.num (.fin count))
          | v => pure v
    else pure (JsVal.num (.fin count))
  let metrics : ScaleRange :=
    match scaleMetrics.min with
    | none => { min := some scaleVal, max := some scaleVal }
    | some mn =>
        { min := some (jsMathMin jm mn scaleVal),
          max := some (jsMathMax jm (scaleMetrics.max.getD .undef) scaleVal) }
  pure (ci, metrics)

/-- The map size at zoom level 22 for 512-pixel tiles. -/
def mapSize22 : ℚ := 512 * 2 ^ 22

/-- The inner-radius factor `Math.cos(30 * Math.PI / 180)` of a hexagon. -/
def innerRadiusScale (jm : JsMath) : ℚ := jm.cos (30 * jm.pi / 180)

/-- The default linear scale expression
`['/', ['-', ['get','point_count'], ['get','min']], ['-', ['get','max'], ['get','min']]]`. -/
def LinearPointCountScaleExpression : JsVal :=
  .arr [.str "/",
    .arr [.str "-", .arr [.str "get", .str "point_count"], .arr [.str "get", .str "min"]],
    .arr [.str "-", .arr [.str "get", .str "max"], .arr [.str "get", .str "min"]]]

/-- Conversion of a zoom-22 pixel back to a geographic position
(`_toPosition22`). -/
def _toPosition22 (jm : JsMath) (pixel : ℚ × ℚ) : ℚ × ℚ :=
  (360 * (pixel.1 / mapSize22 - 1/2),
   90 - 360 * jm.atan (jm.exp ((pixel.2 / mapSize22 - 1/2) * jm.pi * 2)) / jm.pi)

/-- Conversion of a geographic position to a zoom-22 pixel (`toPixel22`). -/
def toPixel22 (jm : JsMath) (pos : ℚ × ℚ) : ℚ × ℚ :=
  let sinLatitude := jm.sin (pos.2 * (jm.pi / 180))
  ((pos.1 + 180) / 360 * mapSize22,
   (1/2 - jm.log ((1 + sinLatitude) / (1 - sinLatitude)) / (jm.pi * 4)) * mapSize22)

/-- Ground resolution in meters per pixel at zoom level 22
(`_getGroundResolutionZ22`).  Rational division by zero yields `0` where
JavaScript would yield `Infinity` (only reachable when the opaque cosine is
zero; no claim exercises it). -/
def _getGroundResolutionZ22 (jm : JsMath) (centerLatitude : ℚ) : ℚ :=
  jm.cos (centerLatitude * (jm.pi / 180)) * 2 * jm.pi * 6378137 / mapSize22

/-- Sine/cosine tables for a regular polygon (`_calculateArcAngles`). -/
def _calculateArcAngles (jm : JsMath) (numNodes : ℕ) (offset : ℚ) : ArcAngles :=
  let centralAngle : ℚ := 360 / (numNodes : ℚ)
  { sin := (List.range numNodes).map
      (fun (i : ℕ) => jm.sin (((i : ℚ) * centralAngle + offset) * (jm.pi / 180))),
    cos := (List.range numNodes).map
      (fun (i : ℕ) => jm.cos (((i : ℚ) * centralAngle + offset) * (jm.pi / 180))) }

/-- Arc-angle tables per grid type (`_getArcAngles`).  The source memoises the
result in a static record; the cache is modelled as pure recomputation.  Grid
types outside the switch (square, triangle) leave the result `undefined`. -/
def _getArcAngles (jm : JsMath) (gridType : String) : Option ArcAngles :=
  match gridType with
  | "circle" => some (_calculateArcAngles jm 36 0)
  | "hexCircle" => some (_calculateArcAngles jm 36 0)
  | "pointyHexagon" => some (_calculateArcAngles jm 6 0)
  | "hexagon" => some (_calculateArcAngles jm 6 30)
  | _ => none

/-- A cubic (or column/row) cell coordinate.  The components are rational:
integers after cube rounding or flooring, and offset by one half for the
triangle column nudge. -/
structure CubeCoord where
  col : ℚ
  row : ℚ
  z : ℚ
deriving DecidableEq, Repr

/-- Cube rounding (`_roundCubeCoord`): round every component to the nearest
integer and recompute the component whose rounding error is strictly largest
(under the source's strict comparisons, ties fall through to the later
branches) as minus the sum of the other two. -/
def _roundCubeCoord (coord : CubeCoord) : CubeCoord :=
  let rx := jsRound coord.col
  let ry := jsRound coord.row
  let rz := jsRound coord.z
  let x_diff := |(rx : ℚ) - coord.col|
  let y_diff := |(ry : ℚ) - coord.row|
  let z_diff := |(rz : ℚ) - coord.z|
  if x_diff > y_diff ∧ x_diff > z_diff then ⟨((-ry - rz : ℤ) : ℚ), (ry : ℚ), (rz : ℚ)⟩
  else if y_diff > z_diff then ⟨(rx : ℚ), ((-rx - rz : ℤ) : ℚ), (rz : ℚ)⟩
  else ⟨(rx : ℚ), (ry : ℚ), ((-rx - ry : ℤ) : ℚ)⟩

/-- Cell coordinate of a flat-top hexagon containing a pixel
(`_hexCellCoord`). -/
def _hexCellCoord (px py width height sqrt3 : ℚ) : CubeCoord :=
  let col := px * 4 / (3 * width)
  let z := (py - px / sqrt3) / height
  _roundCubeCoord ⟨col, -col - z, z⟩

/-- Cell coordinate of a pointy-top hexagon containing a pixel
(`_rotatedHexCellCoord`). -/
def _rotatedHexCellCoord (px py width height sqrt3 : ℚ) : CubeCoord :=
  let col := (px - py / sqrt3) / width
  let z := 4 * py / (3 * height)
  _roundCubeCoord ⟨col, -col - z, z⟩

/-- Cell coordinate of the triangle containing a pixel
(`_triangleCellCoord`).  `coord.row % 2 === 1` uses the JavaScript remainder
(sign of the dividend), so odd negative rows do not flip `dy`.  The `z`
component keeps the loop variable's initial value `0`, which the triangle
branch never writes. -/
def _triangleCellCoord (px py width height sqrt3 : ℚ) : CubeCoord :=
  let row : ℤ := ⌊py / height⌋
  let col : ℤ := ⌊px / width⌋
  let dy := ((row : ℚ) + 1) * height - py
  let dx := px - (col : ℚ) * width
  let dy := if Int.tmod row 2 = 1 then height - dy else dy
  let colQ : ℚ :=
    if dy > 1 then
      if dx < width * (1/2) then
        if dx / dy < 1 / sqrt3 then (col : ℚ) - 1/2 else (col : ℚ)
      else
        if (width - dx) / dy < 1 / sqrt3 then (col : ℚ) + 1/2 else (col : ℚ)
    else (col : ℚ)
  ⟨colQ, (row : ℚ), 0⟩

/-- Cell coordinate dispatch per grid type (`_getCellCoord`).  The square
branch leaves `z` at the loop variable's initial value `0`. -/
def _getCellCoord (pixel : ℚ × ℚ) (width height : ℚ) (gridType : String) (sqrt3 : ℚ) :
    CubeCoord :=
  match gridType with
  | "pointyHexagon" => _rotatedHexCellCoord pixel.1 pixel.2 width height sqrt3
  | "hexagon" => _hexCellCoord pixel.1 pixel.2 width height sqrt3
  | "hexCircle" => _hexCellCoord pixel.1 pixel.2 width height sqrt3
  | "triangle" => _triangleCellCoord pixel.1 pixel.2 width height sqrt3
  | _ => ⟨((⌊pixel.1 / width⌋ : ℤ) : ℚ), ((⌊pixel.2 / height⌋ : ℤ) : ℚ), 0⟩

/-- The cell id template `x${col}y${row}z${z}`. -/
def cellIdOf (coord : CubeCoord) : String :=
  "x" ++ qToString coord.col ++ "y" ++ qToString coord.row ++ "z" ++ qToString coord.z

/-- Creation of an empty cell feature (`_createCell`). -/
def _createCell (cell_id : String) (cx cy : ℚ) (rightSideUp : Option Bool)
    (hasAggregates : Bool) : Feature :=
  { properties :=
      { cell_id := cell_id
        point_count := 0
        point_count_abbreviated := "0"
        aggregateProperties := if hasAggregates then some [] else none
        _x := cx
        _y := cy
        _rightSideUp := rightSideUp },
    geometry := [] }

/-- Creation of an empty cell feature from a cell coordinate, computing the
pixel anchor per grid type and the triangle orientation flag
(`_createCellFromCubeCoord`).  `0.1` in the whole-column test is a binary
float in the source, but the compared error is exactly `0` or `1/2`, so the
exact `1/10` decides identically. -/
def _createCellFromCubeCoord (cellId : String) (cube : CubeCoord) (gridType : String)
    (width height : ℚ) (hasAggregates : Bool) : Feature :=
  match gridType with
  | "pointyHexagon" =>
      _createCell cellId (width * (cube.col + cube.z * (1/2))) ((3/4) * height * cube.z)
        none hasAggregates
  | "hexagon" =>
      _createCell cellId ((3/4) * width * cube.col) (height * (cube.z + cube.col * (1/2)))
        none hasAggregates
  | "hexCircle" =>
      _createCell cellId ((3/4) * width * cube.col) (height * (cube.z + cube.col * (1/2)))
        none hasAggregates
  | "triangle" =>
      let cy : ℚ := ((⌊cube.row * height⌋ : ℤ) : ℚ)
      let cx : ℚ := ((⌊(cube.col + 1/2) * width⌋ : ℤ) : ℚ)
      let whole_col : Bool := decide (|cube.col - ((jsRound cube.col : ℤ) : ℚ)| < 1/10)
      let rightSideUp : Bool :=
        if Int.tmod (jsRound cube.row) 2 = 0 then whole_col else !whole_col
      _createCell cellId cx cy (some rightSideUp) hasAggregates
  | _ =>
      _createCell cellId ((cube.col + 1/2) * width) ((cube.row + 1/2) * height)
        none hasAggregates

/-- Append a point index to the entry of a cell id in the point lookup table
(the `push` on `pointLookupTable[cellId]`; the key is present whenever this
is called). -/
def assocPush : List (String × List ℕ) → String → ℕ → List (String × List ℕ)
  | [], _, _ => []
  | (k0, l0) :: rest, k, v =>
      if k0 = k then (k0, l0 ++ [v]) :: rest else (k0, l0) :: assocPush rest k v

/-- Fetch-or-create of the cell for a cell id (`_getGridCell`): an existing
cell has the point index appended to its point list; a fresh cell is created,
indexed and registered with the point index as its first entry.  Returns the
updated grid and the cell's position in the cell array. -/
def _getGridCell (cellId : String) (cube : CubeCoord) (i : ℕ) (gridInfo : GridInfo)
    (width height : ℚ) (gridType : String) (hasAggregates : Bool) : GridInfo × ℕ :=
  match gridInfo.cellLookupTable.lookup cellId with
  | some cellIdx =>
      ({ gridInfo with pointLookupTable := assocPush gridInfo.pointLookupTable cellId i },
       cellIdx)
  | none =>
      let cell := _createCellFromCubeCoord cellId cube gridType width height hasAggregates
      ({ gridInfo with
          pointLookupTable := gridInfo.pointLookupTable ++ [(cellId, [i])]
          cells := gridInfo.cells ++ [cell]
          cellLookupTable := gridInfo.cellLookupTable ++ [(cellId, gridInfo.cells.length)] },
       gridInfo.cells.length)

/-- The binning loop of `calculateGrid` over the point array, carried by the
running index.  A point is modelled by its properties bag (the only part the
loop reads); a missing pixel for an index throws as the JavaScript member
access on `undefined` would. -/
def binPoints (jm : JsMath) (width height : ℚ) (gridType : String) (sqrt3 : ℚ)
    (hasAggregates : Bool) (aggregateProperties : Option (List (String × JsVal)))
    (mapExpressions : List (String × CellAggregateExpression))
    (pixels : List (ℚ × ℚ)) : ℕ → List JsVal → GridInfo → Except String GridInfo
  | _, [], g => .ok g
  | i, pt :: rest, g =>
      match pixels[i]? with
      | none => .error "TypeError: cannot read properties of undefined"
      | some pixel => do
          let coord := _getCellCoord pixel width height gridType sqrt3
          let cellId := cellIdOf coord
          let gi := _getGridCell cellId coord i g width height gridType hasAggregates
          match gi.1.cells[gi.2]? with
          | none => .error "unreachable: cell index out of range"
          | some cell => do
              let props ← _incrementCellInfo jm cell.properties pt aggregateProperties
                mapExpressions
              binPoints jm width height gridType sqrt3 hasAggregates aggregateProperties
                mapExpressions pixels (i + 1) rest
                { gi.1 with cells := gi.1.cells.set gi.2 { cell with properties := props } }

/-- The property bag handed to the scale expression: `Object.assign` of the
`min`/`max` metrics and the cell's own properties (the key sets never
overlap). -/
def scaleBag (ci : CellInfo) (mr : ScaleRange) : JsVal :=
  .obj ([("min", mr.min.getD .undef), ("max", mr.max.getD .undef)] ++
    [("cell_id", .str ci.cell_id),
     ("aggregateProperties",
       match ci.aggregateProperties with
       | none => .undef
       | some l => .obj l),
     ("_x", .num (.fin ci._x)),
     ("_y", .num (.fin ci._y)),
     ("_rightSideUp",
       match ci._rightSideUp with
       | none => .undef
       | some b => .bool b),
     ("point_count", .num (.fin ci.point_count)),
     ("point_count_abbreviated", .str ci.point_count_abbreviated)])

/-- Regular polygon cell geometry (`_getRegularPolygon`): vertices from the
precomputed angle tables around the cell anchor, the pixel x clamped to the
map, converted to positions, and the ring closed with its first vertex.  The
close models the source's `pos.push(pos[0])`, which repeats the first vertex
of the (always nonempty) vertex list. -/
def _getRegularPolygon (jm : JsMath) (cellInfo : CellInfo) (radius : ℚ)
    (arcAngles : ArcAngles) (minCellWidth : ℚ) : List (List (ℚ × ℚ)) :=
  let radius := if radius * 2 < minCellWidth then minCellWidth * (1/2) else radius
  let pos := arcAngles.sin.enum.map
    (fun p =>
      let dx := min (max (cellInfo._x + radius * p.2) 0) mapSize22
      let dy := cellInfo._y + radius * (arcAngles.cos.getD p.1 0)
      _toPosition22 jm (dx, dy))
  [pos ++ pos.take 1]

/-- Square cell geometry (`_getSquare`): corners from the scaled half width
(floored by the minimum cell width), the x extent clamped to the map, the
ring closed with its first vertex. -/
def _getSquare (jm : JsMath) (cellInfo : CellInfo) (width scale minCellWidth : ℚ) :
    List (List (ℚ × ℚ)) :=
  let scaledHalfWidth := max (width * scale) minCellWidth * (1/2)
  let top := cellInfo._y - scaledHalfWidth
  let bottom := cellInfo._y + scaledHalfWidth
  let left := max (cellInfo._x - scaledHalfWidth) 0
  let right := min (cellInfo._x + scaledHalfWidth) mapSize22
  let pos := [_toPosition22 jm (left, top), _toPosition22 jm (left, bottom),
              _toPosition22 jm (right, bottom), _toPosition22 jm (right, top)]
  [pos ++ pos.take 1]

/-- Triangle cell geometry (`_getTriangle`): scaled and vertically recentered
triangle, the degenerate-width guard rescaling the height (a zero scaled
width gives `Infinity` in JavaScript and `0` in the rational model; no claim
exercises it), the three x coordinates clamped as a group to one hemisphere,
the orientation chosen by the stored flag, and the ring closed with its first
vertex. -/
def _getTriangle (jm : JsMath) (cellInfo : CellInfo) (width height scale minCellWidth : ℚ) :
    List (List (ℚ × ℚ)) :=
  let offsetX := cellInfo._x
  let offsetY := cellInfo._y + (height - height * scale) * (1/2)
  let width := width * scale
  let height := height * scale
  let height := if width < minCellWidth then height * (minCellWidth / width) else height
  let halfWidth := width * (1/2)
  let x1 := offsetX
  let x2 := offsetX + halfWidth
  let x3 := offsetX - halfWidth
  let xs :=
    if x3 < 0 then (max x1 0, max x2 0, max x3 0)
    else if x2 > mapSize22 then (min x1 mapSize22, min x2 mapSize22, min x3 mapSize22)
    else (x1, x2, x3)
  let pos :=
    if cellInfo._rightSideUp.getD false then
      [_toPosition22 jm (xs.1, offsetY), _toPosition22 jm (xs.2.1, height + offsetY),
       _toPosition22 jm (xs.2.2, height + offsetY)]
    else
      [_toPosition22 jm (xs.1, height + offsetY), _toPosition22 jm (xs.2.1, offsetY),
       _toPosition22 jm (xs.2.2, offsetY)]
  [pos ++ pos.take 1]

/-- The grid-type dispatch of `createGridPolygon` once the effective scale is
known.  Reaching a regular-polygon branch with no angle table models the
JavaScript `TypeError` of iterating `undefined`. -/
def gridPolygonOfScale (jm : JsMath) (cellInfo : CellInfo)
    (options : GriddedDataSourceOptions) (width height : ℚ) (arcAngles : Option ArcAngles)
    (minCellWidth scale : ℚ) : Except String (List (List (ℚ × ℚ))) :=
  match options.gridType with
  | "square" => .ok (_getSquare jm cellInfo width scale minCellWidth)
  | "hexCircle" =>
      match arcAngles with
      | none => .error "TypeError: cannot iterate undefined"
      | some arc =>
          .ok (_getRegularPolygon jm cellInfo (innerRadiusScale jm * width * (1/2) * scale)
            arc minCellWidth)
  | "triangle" => .ok (_getTriangle jm cellInfo width height scale minCellWidth)
  | "pointyHexagon" =>
      match arcAngles with
      | none => .error "TypeError: cannot iterate undefined"
      | some arc =>
          .ok (_getRegularPolygon jm cellInfo (height * (1/2) * scale) arc minCellWidth)
  | _ =>
      match arcAngles with
      | none => .error "TypeError: cannot iterate undefined"
      | some arc =>
          .ok (_getRegularPolygon jm cellInfo (width * (1/2) * scale) arc minCellWidth)

/-- Cell polygon generation (`createGridPolygon`): the effective scale is the
coverage (a falsy coverage defaults to 1), multiplied — when a scale property
is configured and metrics exist — by the scale expression's value whenever
that value is a number other than `NaN` (JavaScript's
`!isNaN(s) && typeof s === 'number'` also lets `±Infinity` through; an
infinite scale is not representable in the rational pixel model and no claim
exercises it). -/
def createGridPolygon (jm : JsMath) (cellInfo : CellInfo)
    (options : GriddedDataSourceOptions) (width height : ℚ) (arcAngles : Option ArcAngles)
    (minCellWidth : ℚ) (scaleExp : Exp) (scaleMetrics : Option ScaleRange) :
    Except String (List (List (ℚ × ℚ))) := do
  let scale0 : ℚ := if options.coverage = 0 then 1 else options.coverage
  let scale ←
    if optStrTruthy options.scaleProperty ∧ scaleMetrics.isSome then do
      let s ← Exp.evalTop jm scaleExp (scaleBag cellInfo (scaleMetrics.getD ⟨none, none⟩))
      match s with
      | .num (.fin q) => pure (scale0 * q)
      | _ => pure scale0
    else pure scale0
  gridPolygonOfScale jm cellInfo options width height arcAngles minCellWidth scale

/-- The first loop of `_finalizeGrid`'s scale-property branch: finalize every
cell's properties while threading the scale metrics. -/
def finalizePass (jm : JsMath) (mapExps : List (String × CellAggregateExpression))
    (scaleProperty : Option String) :
    List Feature → ScaleRange → Except String (List Feature × ScaleRange)
  | [], m => .ok ([], m)
  | cell :: rest, m => do
      let r ← _finalizeCellInfo jm cell.properties mapExps m scaleProperty
      let tail ← finalizePass jm mapExps scaleProperty rest r.2
      pure ({ cell with properties := r.1 } :: tail.1, tail.2)

/-- The polygon loop shared by `_finalizeGrid`'s scale-property branch and
`recalculateCoords`: recompute every cell's geometry. -/
def polyPass (jm : JsMath) (options : GriddedDataSourceOptions) (width height : ℚ)
    (arcAngles : Option ArcAngles) (minCellWidth : ℚ) (scaleExp : Exp)
    (scaleMetrics : Option ScaleRange) : List Feature → Except String (List Feature)
  | [] => .ok []
  | cell :: rest => do
      let poly ← createGridPolygon jm cell.properties options width height arcAngles
        minCellWidth scaleExp scaleMetrics
      let tail ← polyPass jm options width height arcAngles minCellWidth scaleExp
        scaleMetrics rest
      pure ({ cell with geometry := poly } :: tail)

/-- The fused loop of `_finalizeGrid`'s no-scale-property branch: finalize a
cell and immediately compute its polygon against the metrics accumulated so
far. -/
def finalizePolyPass (jm : JsMath) (options : GriddedDataSourceOptions)
    (mapExps : List (String × CellAggregateExpression)) (width height : ℚ)
    (arcAngles : Option ArcAngles) (minCellWidth : ℚ) (scaleExp : Exp) :
    List Feature → ScaleRange → Except String (List Feature × ScaleRange)
  | [], m => .ok ([], m)
  | cell :: rest, m => do
      let r ← _finalizeCellInfo jm cell.properties mapExps m options.scaleProperty
      let poly ← createGridPolygon jm r.1 options width height arcAngles minCellWidth
        scaleExp (some r.2)
      let tail ← finalizePolyPass jm options mapExps width height arcAngles minCellWidth
        scaleExp rest r.2
      pure ({ cell with properties := r.1, geometry := poly } :: tail.1, tail.2)

/-- The finalize stage of `calculateGrid` (`_finalizeGrid`): with a scale
property, all cells are finalized before any polygon is generated (against
the completed metrics); otherwise finalize and polygon generation are fused
per cell.  The resulting metrics are stored on the grid. -/
def _finalizeGrid (jm : JsMath) (gridInfo : GridInfo) (width height : ℚ)
    (options : GriddedDataSourceOptions)
    (aggregateExpressions : List (String × CellAggregateExpression))
    (scaleExpression : Exp) (minCellWidth : ℚ) (arcAngles : Option ArcAngles) :
    Except String GridInfo := do
  if optStrTruthy options.scaleProperty then do
    let fm ← finalizePass jm aggregateExpressions options.scaleProperty gridInfo.cells
      ⟨none, none⟩
    let cells ← polyPass jm options width height arcAngles minCellWidth scaleExpression
      (some fm.2) fm.1
    pure { gridInfo with cells := cells, scaleMetrics := some fm.2 }
  else do
    let fm ← finalizePolyPass jm options aggregateExpressions width height arcAngles
      minCellWidth scaleExpression gridInfo.cells ⟨none, none⟩
    pure { gridInfo with cells := fm.1, scaleMetrics := some fm.2 }

/-- The pixel cell width derived from the options: the configured spatial
width converted to meters (through the external `convertDistance`
collaborator, kept opaque as a parameter) and divided by the ground
resolution at the configured center latitude. -/
def gridWidth (jm : JsMath) (convertDistance : ℚ → String → ℚ)
    (options : GriddedDataSourceOptions) : ℚ :=
  convertDistance options.cellWidth options.distanceUnits /
    _getGroundResolutionZ22 jm options.centerLatitude

/-- The pixel minimum cell width derived from the options: the configured
minimum snapped to the cell width, converted to meters and divided by the
ground resolution (computed identically by `calculateGrid` and
`recalculateCoords`). -/
def gridMinCellWidth (jm : JsMath) (convertDistance : ℚ → String → ℚ)
    (options : GriddedDataSourceOptions) : ℚ :=
  convertDistance (min options.minCellWidth options.cellWidth) options.distanceUnits /
    _getGroundResolutionZ22 jm options.centerLatitude

/-- The pixel cell height per grid type, from the width and `sqrt3`. -/
def gridHeight (gridType : String) (width sqrt3 : ℚ) : ℚ :=
  match gridType with
  | "pointyHexagon" => 2 * width / sqrt3
  | "hexagon" => sqrt3 * width * (1/2)
  | "hexCircle" => sqrt3 * width * (1/2)
  | "triangle" => sqrt3 * (1/2) * width
  | _ => width

/-- Whether aggregate expressions are configured and nonempty. -/
def hasAggregatesOf (options : GriddedDataSourceOptions) : Bool :=
  options.aggregateProperties.elim false (fun l => !l.isEmpty)

/-- The parsed aggregate map derived from the options. -/
def mapExpressionsOf (options : GriddedDataSourceOptions) :
    List (String × CellAggregateExpression) :=
  if hasAggregatesOf options then _parseMapExpressions (options.aggregateProperties.getD [])
  else []

/-- The full recompute `calculateGrid`: derive pixel cell dimensions from the
options (unit conversion through the external `convertDistance` collaborator,
kept opaque as a parameter), parse the aggregate and scale expressions, bin
every point and finalize.  The option record is already complete (see
`GriddedDataSourceOptions`), so the default merge only affects the optional
`scaleExpression`. -/
def calculateGrid (jm : JsMath) (convertDistance : ℚ → String → ℚ)
    (points : List JsVal) (pixels : List (ℚ × ℚ)) (options : GriddedDataSourceOptions) :
    Except String GridInfo := do
  let width := gridWidth jm convertDistance options
  let minCellWidth := gridMinCellWidth jm convertDistance options
  let scaleExpression ← Expression.parse
    (options.scaleExpression.getD LinearPointCountScaleExpression)
  let arcAngles := _getArcAngles jm options.gridType
  let sqrt3 := jm.sqrt 3
  let height := gridHeight options.gridType width sqrt3
  let gridInfo : GridInfo :=
    { cells := [], cellLookupTable := [], pointLookupTable := [], scaleMetrics := none,
      width := width, height := height }
  let g ← binPoints jm width height options.gridType sqrt3 (hasAggregatesOf options)
    options.aggregateProperties (mapExpressionsOf options) pixels 0 points gridInfo
  _finalizeGrid jm g width height options (mapExpressionsOf options) scaleExpression
    minCellWidth arcAngles

/-- The coordinates-only recompute `recalculateCoords`: re-parse the scale
expression, recompute the minimum cell width, and regenerate every cell's
geometry against the grid's stored dimensions and stored scale metrics.  The
source mutates the grid in place; the model returns the updated grid. -/
def recalculateCoords (jm : JsMath) (convertDistance : ℚ → String → ℚ)
    (gridInfo : GridInfo) (options : GriddedDataSourceOptions) :
    Except String GridInfo := do
  let scaleExpression ← Expression.parse
    (options.scaleExpression.getD LinearPointCountScaleExpression)
  let minCellWidth := gridMinCellWidth jm convertDistance options
  let cells ← polyPass jm options gridInfo.width gridInfo.height
    (_getArcAngles jm options.gridType) minCellWidth scaleExpression gridInfo.scaleMetrics
    gridInfo.cells
  pure { gridInfo with cells := cells }

/-!
## Concrete instances

A fixed instantiation of the opaque parameters for concrete runs.  The claims
never depend on the values of the opaque math functions; this record makes
the ground resolution nonzero so that pixel cell widths come out nonzero.
-/

/-- A concrete instantiation of the opaque JavaScript math parameters. -/
def jm0 : JsMath where
  sin := fun _ => 0
  cos := fun _ => 1
  tan := fun _ => 0
  asin := fun _ => 0
  acos := fun _ => 0
  atan := fun _ => 0
  sqrt := fun _ => 0
  exp := fun _ => 0
  log := fun _ => 0
  pow := fun _ _ => 0
  pi := 3
  ln2 := 0
  ln10 := 0
  toNumStr := fun _ => .nan
  parseFloatStr := fun _ => .nan

/-- A concrete distance conversion chosen so that, with `jm0`, the pixel cell
width equals the configured cell width (the ground resolution under `jm0` is
`2 * 3 * 6378137 / 2 ^ 31`). -/
def conv0 : ℚ → String → ℚ := fun q _ => q * (38268822 / 2 ^ 31)

/-- The aggregate `['+', ['get', 'value']]` of the claims. -/
def aggPlusValue : JsVal := .arr [.str "+", .arr [.str "get", .str "value"]]

/-- The aggregate `['max', ['get', 'value']]` of the claims. -/
def aggMaxValue : JsVal := .arr [.str "max", .arr [.str "get", .str "value"]]

/-- The aggregate `['+', 10, ['get', 'value']]` of the claims. -/
def aggPlusInit10Value : JsVal :=
  .arr [.str "+", .num (.fin 10), .arr [.str "get", .str "value"]]

/-- Three points whose `value` properties are 1, 2, 3. -/
def c1Points : List JsVal :=
  [.obj [("value", .num (.fin 1))], .obj [("value", .num (.fin 2))],
   .obj [("value", .num (.fin 3))]]

/-- The per-point fold of one aggregate named `total` over the three points
of the aggregate-fold claim: a fresh cell incremented once per point by
`_incrementCellInfo`, exactly as the binning loop does for a cell containing
those points. -/
def c1Fold (agg : JsVal) : Except String CellInfo :=
  c1Points.foldlM
    (fun ci pt =>
      _incrementCellInfo jm0 ci pt (some [("total", agg)])
        (_parseMapExpressions [("total", agg)]))
    (_createCell "cell" 0 0 none true).properties

/-- The per-point fold followed by the finalize pass, returning the cell's
aggregate record. -/
def c1Run (agg : JsVal) : Except String (Option (List (String × JsVal))) :=
  (c1Fold agg).bind
    (fun ci =>
      (_finalizeCellInfo jm0 ci (_parseMapExpressions [("total", agg)]) ⟨none, none⟩
        none).map (fun p => p.1.aggregateProperties))

/-!
## Claim C1

The three-point aggregate folds are evaluated step by step: each
`_incrementCellInfo` application is settled by computation against an
explicit intermediate cell state, and the chain is assembled by rewriting.
-/

/-- Reduction of a bind on an `ok` result. -/
theorem ok_bind {e a b : Type} (x : a) (f : a -> Except e b) :
    (Except.ok x : Except e a) >>= f = f x := rfl

/-- Reduction of a map on an `ok` result. -/
theorem ok_map {e a b : Type} (x : a) (f : a -> b) :
    Except.map f (Except.ok x : Except e a) = .ok (f x) := rfl

/-- Reduction of `Except.bind` on an `ok` result. -/
theorem ok_bindE {e a b : Type} (x : a) (f : a -> Except e b) :
    (Except.ok x : Except e a).bind f = f x := rfl

/-- The cell state of the aggregate-fold claim after some points: point
count `n` and accumulated `total` value `v`. -/
def c1State (n : Nat) (v : JsNum) : CellInfo :=
  { cell_id := "cell", point_count := n, point_count_abbreviated := "0",
    aggregateProperties := some [("total", .num v)], _x := 0, _y := 0,
    _rightSideUp := none }

/-- The finalized cell state of the aggregate-fold claim. -/
def c1Final (v : JsNum) : CellInfo :=
  { cell_id := "cell", point_count := 3, point_count_abbreviated := "3",
    aggregateProperties := some [("total", .num v)], _x := 0, _y := 0,
    _rightSideUp := none }

theorem c1PlusStep1 :
    _incrementCellInfo jm0 (_createCell "cell" 0 0 none true).properties
      (.obj [("value", .num (.fin 1))]) (some [("total", aggPlusValue)])
      (_parseMapExpressions [("total", aggPlusValue)]) = .ok (c1State 1 (.fin 1)) := by
  decide

theorem c1PlusStep2 :
    _incrementCellInfo jm0 (c1State 1 (.fin 1)) (.obj [("value", .num (.fin 2))])
      (some [("total", aggPlusValue)])
      (_parseMapExpressions [("total", aggPlusValue)]) = .ok (c1State 2 (.fin 3)) := by
  decide

theorem c1PlusStep3 :
    _incrementCellInfo jm0 (c1State 2 (.fin 3)) (.obj [("value", .num (.fin 3))])
      (some [("total", aggPlusValue)])
      (_parseMapExpressions [("total", aggPlusValue)]) = .ok (c1State 3 (.fin 6)) := by
  decide

theorem c1Fold_plus : c1Fold aggPlusValue = .ok (c1State 3 (.fin 6)) := by
  simp only [c1Fold, c1Points, List.foldlM_cons, List.foldlM_nil, c1PlusStep1, ok_bind,
    c1PlusStep2, c1PlusStep3]
  rfl

theorem c1PlusFin :
    _finalizeCellInfo jm0 (c1State 3 (.fin 6))
      (_parseMapExpressions [("total", aggPlusValue)]) ⟨none, none⟩ none =
      .ok (c1Final (.fin 6), ⟨some (.num (.fin 3)), some (.num (.fin 3))⟩) := by
  decide

theorem c1Run_plus : c1Run aggPlusValue = .ok (some [("total", .num (.fin 6))]) := by
  rw [c1Run, c1Fold_plus, ok_bindE, c1PlusFin, ok_map]
  rfl

theorem c1MaxStep1 :
    _incrementCellInfo jm0 (_createCell "cell" 0 0 none true).properties
      (.obj [("value", .num (.fin 1))]) (some [("total", aggMaxValue)])
      (_parseMapExpressions [("total", aggMaxValue)]) = .ok (c1State 1 (.fin 1)) := by
  decide

theorem c1MaxStep2 :
    _incrementCellInfo jm0 (c1State 1 (.fin 1)) (.obj [("value", .num (.fin 2))])
      (some [("total", aggMaxValue)])
      (_parseMapExpressions [("total", aggMaxValue)]) = .ok (c1State 2 (.fin 2)) := by
  decide

theorem c1MaxStep3 :
    _incrementCellInfo jm0 (c1State 2 (.fin 2)) (.obj [("value", .num (.fin 3))])
      (some [("total", aggMaxValue)])
      (_parseMapExpressions [("total", aggMaxValue)]) = .ok (c1State 3 (.fin 3)) := by
  decide

theorem c1Fold_max : c1Fold aggMaxValue = .ok (c1State 3 (.fin 3)) := by
  simp only [c1Fold, c1Points, List.foldlM_cons, List.foldlM_nil, c1MaxStep1, ok_bind,
    c1MaxStep2, c1MaxStep3]
  rfl

theorem c1MaxFin :
    _finalizeCellInfo jm0 (c1State 3 (.fin 3))
      (_parseMapExpressions [("total", aggMaxValue)]) ⟨none, none⟩ none =
      .ok (c1Final (.fin 3), ⟨some (.num (.fin 3)), some (.num (.fin 3))⟩) := by
  decide

theorem c1Run_max : c1Run aggMaxValue = .ok (some [("total", .num (.fin 3))]) := by
  rw [c1Run, c1Fold_max, ok_bindE, c1MaxFin, ok_map]
  rfl

theorem c1InitStep1 :
    _incrementCellInfo jm0 (_createCell "cell" 0 0 none true).properties
      (.obj [("value", .num (.fin 1))]) (some [("total", aggPlusInit10Value)])
      (_parseMapExpressions [("total", aggPlusInit10Value)]) = .ok (c1State 1 (.fin 11)) := by
  decide

theorem c1InitStep2 :
    _incrementCellInfo jm0 (c1State 1 (.fin 11)) (.obj [("value", .num (.fin 2))])
      (some [("total", aggPlusInit10Value)])
      (_parseMapExpressions [("total", aggPlusInit10Value)]) = .ok (c1State 2 (.fin 13)) := by
  decide

theorem c1InitStep3 :
    _incrementCellInfo jm0 (c1State 2 (.fin 13)) (.obj [("value", .num (.fin 3))])
      (some [("total", aggPlusInit10Value)])
      (_parseMapExpressions [("total", aggPlusInit10Value)]) = .ok (c1State 3 (.fin 16)) := by
  decide

theorem c1Fold_init10 : c1Fold aggPlusInit10Value = .ok (c1State 3 (.fin 16)) := by
  simp only [c1Fold, c1Points, List.foldlM_cons, List.foldlM_nil, c1InitStep1, ok_bind,
    c1InitStep2, c1InitStep3]
  rfl

theorem c1InitFin :
    _finalizeCellInfo jm0 (c1State 3 (.fin 16))
      (_parseMapExpressions [("total", aggPlusInit10Value)]) ⟨none, none⟩ none =
      .ok (c1Final (.fin 26), ⟨some (.num (.fin 3)), some (.num (.fin 3))⟩) := by
  decide

theorem c1Run_init10 : c1Run aggPlusInit10Value = .ok (some [("total", .num (.fin 26))]) := by
  rw [c1Run, c1Fold_init10, ok_bindE, c1InitFin, ok_map]
  rfl

/-- Claim C1, counterexample: with the aggregate `['+', 10, ['get','value']]`
over the points with values 1, 2, 3, the cell's final `total` after the
per-point fold and the finalize pass is not 16 (the claim's value): the
finalize pass folds the initial value 10 a second time, so the result is
26. -/
theorem C1_counterexample :
    c1Run aggPlusInit10Value ≠ .ok (some [("total", .num (.fin 16))]) ∧
      c1Run aggPlusInit10Value = .ok (some [("total", .num (.fin 26))]) :=
  ⟨by rw [c1Run_init10]; decide, c1Run_init10⟩

/-- Claim C1 (amended): for a cell containing 3 points with `value`
properties 1, 2, 3, folding `['+', ['get','value']]` yields `total = 6` and
operator `max` yields 3; with `['+', 10, ['get','value']]` the per-point
fold seeds from the scalar initial value 10 and reaches 16, and the finalize
pass folds the initial value once more, so the cell's final `total` is
26 (not 16). -/
theorem C1_aggregate_fold_amended :
    c1Run aggPlusValue = .ok (some [("total", .num (.fin 6))]) ∧
      c1Run aggMaxValue = .ok (some [("total", .num (.fin 3))]) ∧
      (c1Fold aggPlusInit10Value).map (fun ci => ci.aggregateProperties) =
        .ok (some [("total", .num (.fin 16))]) ∧
      c1Run aggPlusInit10Value = .ok (some [("total", .num (.fin 26))]) :=
  ⟨c1Run_plus, c1Run_max, by rw [c1Fold_init10]; rfl, c1Run_init10⟩

/-!
## Claim C2
-/

/-- The raw expression `['case', ['>', ['get','n'], 10], 'big', 'small']`. -/
def c2CaseRaw : JsVal :=
  .arr [.str "case", .arr [.str ">", .arr [.str "get", .str "n"], .num (.fin 10)],
    .str "big", .str "small"]

/-- Claim C2, code bug: evaluating the parse of
`['case', ['>', ['get','n'], 10], 'big', 'small']` against `{n: 5}` returns
`undefined`, not the fallback `'small'` that the grammar documents: the
parse loop also consumes the fallback as a condition whose paired output is
the out-of-bounds read `undefined`, and the truthy string `'small'` then
wins as a condition.  Against `{n: 15}` the first condition is true and
`'big'` is returned as documented. -/
theorem C2_case_fallback_bug :
    (Expression.parse c2CaseRaw).bind
        (fun e => Exp.evalTop jm0 e (.obj [("n", .num (.fin 5))])) = .ok .undef ∧
      (Expression.parse c2CaseRaw).bind
        (fun e => Exp.evalTop jm0 e (.obj [("n", .num (.fin 15))])) = .ok (.str "big") := by
  decide

/-!
## Claim C3
-/

/-- The unary math operator tags of the claim. -/
def unaryMathOps : List String :=
  ["abs", "acos", "asin", "atan", "ceil", "cos", "floor", "ln", "log10", "log2",
   "round", "sin", "sqrt", "tan"]

/-- Claim C3, code bug: for every listed unary operator and every numeric
operand, `Expression.parse` on `[op, x]` raises a parse error (the math
parser requires at least three array elements), and the zero-arity constants
`['e']`, `['pi']`, `['ln2']` fail to parse as well — contradicting the
in-source expression grammar, which lists all of these forms as
supported. -/
theorem C3_unary_math_parse_error :
    (∀ op ∈ unaryMathOps, ∀ x : ℚ,
        (Expression.parse (.arr [.str op, .num (.fin x)])).isOk = false) ∧
      (Expression.parse (.arr [.str "e"])).isOk = false ∧
      (Expression.parse (.arr [.str "pi"])).isOk = false ∧
      (Expression.parse (.arr [.str "ln2"])).isOk = false := by
  refine ⟨?_, by decide, by decide, by decide⟩
  intro op hop x
  fin_cases hop <;> rfl

/-- Claim C3, witness: the theorem applied to the operator `abs` and the
operand 5. -/
theorem C3_unary_math_parse_error_witness :
    (Expression.parse (.arr [.str "abs", .num (.fin 5)])).isOk = false :=
  C3_unary_math_parse_error.1 "abs" (by decide) 5

/-!
## Claim C4
-/

/-- Modelled from the claim's words: cube rounding in which, when two of the
per-component rounding errors are equal (and maximal), the correction is
chosen with col-correction taking precedence over row-correction and
row-correction over z-correction (ties included, so the comparisons are
non-strict, first condition checked wins). -/
def roundCubeCoordClaim (coord : CubeCoord) : CubeCoord :=
  let rx := jsRound coord.col
  let ry := jsRound coord.row
  let rz := jsRound coord.z
  let x_diff := |(rx : ℚ) - coord.col|
  let y_diff := |(ry : ℚ) - coord.row|
  let z_diff := |(rz : ℚ) - coord.z|
  if x_diff ≥ y_diff ∧ x_diff ≥ z_diff then ⟨((-ry - rz : ℤ) : ℚ), (ry : ℚ), (rz : ℚ)⟩
  else if y_diff ≥ z_diff then ⟨(rx : ℚ), ((-rx - rz : ℤ) : ℚ), (rz : ℚ)⟩
  else ⟨(rx : ℚ), (ry : ℚ), ((-rx - ry : ℤ) : ℚ)⟩

/-- Claim C4, counterexample: at `(1/2, -1/2, 0)` the col and row rounding
errors tie (both `1/2`, maximal).  The claimed tie-break (col-correction
first) would produce `(0, 0, 0)`, but the source's strict comparisons skip
the col branch on a tie and correct the row instead, producing
`(1, -1, 0)`. -/
theorem C4_counterexample :
    _roundCubeCoord ⟨1/2, -1/2, 0⟩ = ⟨1, -1, 0⟩ ∧
      roundCubeCoordClaim ⟨1/2, -1/2, 0⟩ = ⟨0, 0, 0⟩ ∧
      _roundCubeCoord ⟨1/2, -1/2, 0⟩ ≠ roundCubeCoordClaim ⟨1/2, -1/2, 0⟩ := by
  decide

/-- Claim C4 (amended): when two of the three rounding errors are equal (and
maximal), the correction goes to the later component, not the earlier one:
a col/row tie corrects the row, a row/z tie corrects z, and a col/z tie
corrects z (the source's strict comparisons let ties fall through to the
later branches). -/
theorem C4_tie_break_amended (c : CubeCoord) :
    (|(jsRound c.col : ℚ) - c.col| = |(jsRound c.row : ℚ) - c.row| ∧
        |(jsRound c.row : ℚ) - c.row| > |(jsRound c.z : ℚ) - c.z| →
      _roundCubeCoord c =
        ⟨((jsRound c.col : ℤ) : ℚ), ((-(jsRound c.col) - jsRound c.z : ℤ) : ℚ),
          ((jsRound c.z : ℤ) : ℚ)⟩) ∧
    (|(jsRound c.row : ℚ) - c.row| = |(jsRound c.z : ℚ) - c.z| ∧
        |(jsRound c.row : ℚ) - c.row| ≥ |(jsRound c.col : ℚ) - c.col| →
      _roundCubeCoord c =
        ⟨((jsRound c.col : ℤ) : ℚ), ((jsRound c.row : ℤ) : ℚ),
          ((-(jsRound c.col) - jsRound c.row : ℤ) : ℚ)⟩) ∧
    (|(jsRound c.col : ℚ) - c.col| = |(jsRound c.z : ℚ) - c.z| ∧
        |(jsRound c.col : ℚ) - c.col| > |(jsRound c.row : ℚ) - c.row| →
      _roundCubeCoord c =
        ⟨((jsRound c.col : ℤ) : ℚ), ((jsRound c.row : ℤ) : ℚ),
          ((-(jsRound c.col) - jsRound c.row : ℤ) : ℚ)⟩) := by
  unfold _roundCubeCoord
  refine ⟨fun h => ?_, fun h => ?_, fun h => ?_⟩
  · rw [if_neg, if_pos h.2]
    simp only [not_and]
    intro hxy
    exact absurd hxy (by rw [h.1]; exact lt_irrefl _)
  · rw [if_neg, if_neg]
    · rw [h.1]; exact lt_irrefl _
    · simp only [not_and]
      intro hxy
      exact absurd (lt_of_le_of_lt h.2 hxy) (lt_irrefl _)
  · rw [if_neg, if_neg]
    · exact fun hyz => absurd (h.1 ▸ hyz) (not_lt.mpr (le_of_lt h.2))
    · simp only [not_and]
      intro _
      rw [h.1]; exact lt_irrefl _

/-- Claim C4 (amended), witness: the tie-break theorem applied at
`(1/2, -1/2, 0)`, where the col and row errors tie above the z error and the
row is corrected. -/
theorem C4_tie_break_amended_witness :
    _roundCubeCoord ⟨1/2, -1/2, 0⟩ =
      ⟨((jsRound ((⟨1/2, -1/2, 0⟩ : CubeCoord).col) : ℤ) : ℚ),
        ((-(jsRound ((⟨1/2, -1/2, 0⟩ : CubeCoord).col)) -
            jsRound ((⟨1/2, -1/2, 0⟩ : CubeCoord).z) : ℤ) : ℚ),
        ((jsRound ((⟨1/2, -1/2, 0⟩ : CubeCoord).z) : ℤ) : ℚ)⟩ :=
  (C4_tie_break_amended ⟨1/2, -1/2, 0⟩).1 (by decide)

/-!
## Claim C6
-/

/-- Claim C6: for every fractional cube coordinate whose components sum to
zero, the rounded coordinate's components sum to exactly zero.  (The source
restores the invariant by recomputing one component as minus the sum of the
other two, so this holds for every input; the hypothesis mirrors the
claim.) -/
theorem C6_cube_rounding_invariant (c : CubeCoord) (_h : c.col + c.row + c.z = 0) :
    (_roundCubeCoord c).col + (_roundCubeCoord c).row + (_roundCubeCoord c).z = 0 := by
  unfold _roundCubeCoord
  dsimp only
  split_ifs <;> push_cast <;> ring

/-- Claim C6, witness: the invariant applied at `(1/3, 1/3, -2/3)`. -/
theorem C6_cube_rounding_invariant_witness :
    (1/3 : ℚ) + 1/3 + (-2/3) = 0 ∧
      (_roundCubeCoord ⟨1/3, 1/3, -2/3⟩).col + (_roundCubeCoord ⟨1/3, 1/3, -2/3⟩).row +
          (_roundCubeCoord ⟨1/3, 1/3, -2/3⟩).z = 0 :=
  ⟨by norm_num, C6_cube_rounding_invariant ⟨1/3, 1/3, -2/3⟩ (by norm_num)⟩

/-!
## Claim C9
-/

/-- Rounding a thousandth to the nearest integer is natural division of the
count plus 500 by 1000. -/
theorem jsRound_div_1000 (c : ℕ) : jsRound ((c : ℚ) / 1000) = ((c + 500) / 1000 : ℕ) := by
  unfold jsRound
  have h : (c : ℚ) / 1000 + 1/2 = ((2 * c + 1000 : ℕ) : ℚ) / ((2000 : ℕ) : ℚ) := by
    push_cast; ring
  rw [h, Rat.floor_natCast_div_natCast]
  norm_cast
  omega

/-- Rounding a millionth to the nearest integer is natural division of the
count plus 500000 by 1000000. -/
theorem jsRound_div_1000000 (c : ℕ) :
    jsRound ((c : ℚ) / 1000000) = ((c + 500000) / 1000000 : ℕ) := by
  unfold jsRound
  have h : (c : ℚ) / 1000000 + 1/2 = ((2 * c + 1000000 : ℕ) : ℚ) / ((2000000 : ℕ) : ℚ) := by
    push_cast; ring
  rw [h, Rat.floor_natCast_div_natCast]
  norm_cast
  omega

/-- Claim C9: the finalize pass's `point_count_abbreviated` follows the
claimed thresholds — at least one million becomes the count divided by one
million rounded to nearest (half up) followed by `M`, at least one thousand
becomes the count divided by one thousand rounded to nearest followed by
`k`, and smaller counts become the literal decimal string; in particular 999
→ "999", 1000 → "1k", 4000 → "4k" and 2500000 → "3M". -/
theorem C9_point_count_abbreviated (count : ℕ) :
    (count < 1000 → pointCountAbbrev count = toString count) ∧
      (1000 ≤ count → count < 1000000 →
        pointCountAbbrev count = toString ((count + 500) / 1000) ++ "k") ∧
      (1000000 ≤ count →
        pointCountAbbrev count = toString ((count + 500000) / 1000000) ++ "M") ∧
      pointCountAbbrev 999 = "999" ∧ pointCountAbbrev 1000 = "1k" ∧
      pointCountAbbrev 4000 = "4k" ∧ pointCountAbbrev 2500000 = "3M" := by
  refine ⟨fun h => ?_, fun h1 h2 => ?_, fun h => ?_, by decide, by decide, by decide,
    by decide⟩
  · rw [pointCountAbbrev, if_neg (by omega), if_neg (by omega)]
  · rw [pointCountAbbrev, if_neg (by omega), if_pos h1, jsRound_div_1000]
    rfl
  · rw [pointCountAbbrev, if_pos h, jsRound_div_1000000]
    rfl

/-- Claim C9, witness: the thousands threshold applied at 4000. -/
theorem C9_point_count_abbreviated_witness :
    pointCountAbbrev 4000 = toString ((4000 + 500) / 1000) ++ "k" :=
  (C9_point_count_abbreviated 4000).2.1 (by norm_num) (by norm_num)

/-!
## Claim C8
-/

/-- A concrete cell for exercising `createGridPolygon`. -/
def c8Cell : CellInfo :=
  { cell_id := "x0y0", point_count := 1, point_count_abbreviated := "1",
    aggregateProperties := none, _x := 50, _y := 50, _rightSideUp := none }

/-- A concrete option set with a scale property configured. -/
def c8Opts : GriddedDataSourceOptions :=
  { gridType := "square", cellWidth := 100, minCellWidth := 0, distanceUnits := "meters",
    coverage := 1, centerLatitude := 0, scaleProperty := some "point_count",
    scaleExpression := none, aggregateProperties := none }

/-- Concrete single-cell scale metrics where `min = max`. -/
def c8Metrics : ScaleRange := ⟨some (.num (.fin 1)), some (.num (.fin 1))⟩

/-- Claim C8: when the scale expression evaluates to `NaN` or to a
non-number, `createGridPolygon` behaves exactly as if the scale were the
coverage factor alone (falsy coverage defaulting to 1), so polygon
generation does not fail on that account — in particular a square grid still
yields a polygon; and on a single-cell bag where `min = max =
point_count`, the default linear scale expression
`(point_count − min)/(max − min)` parses and evaluates to `NaN`. -/
theorem C8_nan_scale_coverage_only (jm : JsMath) (cellInfo : CellInfo)
    (options : GriddedDataSourceOptions) (width height : ℚ) (arcAngles : Option ArcAngles)
    (minCellWidth : ℚ) (scaleExp : Exp) (metrics : ScaleRange) (s : JsVal)
    (h1 : Exp.evalTop jm scaleExp (scaleBag cellInfo metrics) = .ok s)
    (h2 : s = .num .nan ∨ ∀ n : JsNum, s ≠ .num n) :
    createGridPolygon jm cellInfo options width height arcAngles minCellWidth scaleExp
        (some metrics) =
      gridPolygonOfScale jm cellInfo options width height arcAngles minCellWidth
        (if options.coverage = 0 then 1 else options.coverage) ∧
      (options.gridType = "square" →
        (createGridPolygon jm cellInfo options width height arcAngles minCellWidth scaleExp
          (some metrics)).isOk = true) ∧
      (Expression.parse LinearPointCountScaleExpression).bind
          (fun e => Exp.evalTop jm e
            (scaleBag c8Cell ⟨some (.num (.fin 1)), some (.num (.fin 1))⟩)) =
        .ok (.num .nan) := by
  have key : createGridPolygon jm cellInfo options width height arcAngles minCellWidth
      scaleExp (some metrics) =
      gridPolygonOfScale jm cellInfo options width height arcAngles minCellWidth
        (if options.coverage = 0 then 1 else options.coverage) := by
    simp only [createGridPolygon, Option.getD_some]
    by_cases hsp : optStrTruthy options.scaleProperty = true
    · rw [if_pos ⟨hsp, rfl⟩, h1]
      rcases h2 with h2 | h2
      · subst h2; rfl
      · cases s with
        | num n => exact absurd rfl (h2 n)
        | str v => rfl
        | bool b => rfl
        | null => rfl
        | undef => rfl
        | arr l => rfl
        | obj o => rfl
    · rw [if_neg (fun hc => hsp hc.1)]
      rfl
  refine ⟨key, fun hg => ?_, by rfl⟩
  rw [key, gridPolygonOfScale.eq_def, hg]
  rfl

/-- Claim C8, witness: a literal-`NaN` scale expression over concrete square
options — polygon generation succeeds and matches the coverage-only result,
and the default expression yields `NaN` on the `min = max` bag. -/
theorem C8_nan_scale_coverage_only_witness :
    Exp.evalTop jm0 (.literal (.num .nan)) (scaleBag c8Cell c8Metrics) =
        .ok (.num .nan) ∧
      (createGridPolygon jm0 c8Cell c8Opts 100 100 none 0 (.literal (.num .nan))
          (some c8Metrics) =
        gridPolygonOfScale jm0 c8Cell c8Opts 100 100 none 0
          (if c8Opts.coverage = 0 then 1 else c8Opts.coverage) ∧
        (c8Opts.gridType = "square" →
          (createGridPolygon jm0 c8Cell c8Opts 100 100 none 0 (.literal (.num .nan))
            (some c8Metrics)).isOk = true) ∧
        (Expression.parse LinearPointCountScaleExpression).bind
            (fun e => Exp.evalTop jm0 e
              (scaleBag c8Cell ⟨some (.num (.fin 1)), some (.num (.fin 1))⟩)) =
          .ok (.num .nan)) :=
  ⟨rfl, C8_nan_scale_coverage_only jm0 c8Cell c8Opts 100 100 none 0 (.literal (.num .nan))
    c8Metrics (.num .nan) rfl (Or.inl rfl)⟩

/-!
## Claim C7
-/

/-- A closed polygon ring: nonempty, with identical first and last
coordinates. -/
def closedRing (ring : List (ℚ × ℚ)) : Prop :=
  ring ≠ [] ∧ ring.head? = ring.getLast?

/-- Appending the first vertex of a nonempty vertex list (the source's
`pos.push(pos[0])`) closes the ring. -/
theorem closed_append_take (pos : List (ℚ × ℚ)) (h : pos ≠ []) :
    closedRing (pos ++ pos.take 1) := by
  cases pos with
  | nil => exact absurd rfl h
  | cons a t =>
      refine ⟨by simp, ?_⟩
      rw [show (a :: t) ++ (a :: t).take 1 = (a :: t) ++ [a] from rfl, List.getLast?_concat]
      rfl

/-- Inversion of a successful `Except.bind`. -/
theorem bindE_ok {ε α β : Type} (x : Except ε α) (f : α → Except ε β) (b : β)
    (h : x.bind f = .ok b) : ∃ a, x = .ok a ∧ f a = .ok b := by
  cases x with
  | ok a => exact ⟨a, rfl, h⟩
  | error e => exact absurd h (by intro hc; cases hc)

/-- Reduction of `Except.bind` over `pure`. -/
theorem pure_bindE {ε α β : Type} (x : α) (f : α → Except ε β) :
    (pure x : Except ε α).bind f = f x := rfl

/-- Reduction of `Except.bind` over an error. -/
theorem error_bindE {ε α β : Type} (e : ε) (f : α → Except ε β) :
    (Except.error e : Except ε α).bind f = .error e := rfl

/-- `pure` on `Except` is `ok`. -/
theorem pureE_eq {ε α : Type} (x : α) : (pure x : Except ε α) = .ok x := rfl

/-- Reduction of the monadic bind over `ok`. -/
theorem ok_bindM {ε α β : Type} (x : α) (f : α → Except ε β) :
    (Except.ok x : Except ε α) >>= f = f x := rfl

/-- Reduction of the monadic bind over an error. -/
theorem error_bindM {ε α β : Type} (e : ε) (f : α → Except ε β) :
    (Except.error e : Except ε α) >>= f = .error e := rfl

/-- `_getSquare` yields a single closed ring. -/
theorem getSquare_closed (jm : JsMath) (ci : CellInfo) (w s m : ℚ) :
    ∃ ring, _getSquare jm ci w s m = [ring] ∧ closedRing ring := by
  unfold _getSquare
  exact ⟨_, rfl, closed_append_take _ (List.cons_ne_nil _ _)⟩

/-- `_getTriangle` yields a single closed ring. -/
theorem getTriangle_closed (jm : JsMath) (ci : CellInfo) (w h s m : ℚ) :
    ∃ ring, _getTriangle jm ci w h s m = [ring] ∧ closedRing ring := by
  unfold _getTriangle
  dsimp only
  split
  · exact ⟨_, rfl, closed_append_take _ (List.cons_ne_nil _ _)⟩
  · exact ⟨_, rfl, closed_append_take _ (List.cons_ne_nil _ _)⟩

/-- `_getRegularPolygon` yields a single closed ring whenever the sine table
is nonempty. -/
theorem getRegularPolygon_closed (jm : JsMath) (ci : CellInfo) (r : ℚ) (arc : ArcAngles)
    (m : ℚ) (hs : arc.sin ≠ []) :
    ∃ ring, _getRegularPolygon jm ci r arc m = [ring] ∧ closedRing ring := by
  unfold _getRegularPolygon
  refine ⟨_, rfl, closed_append_take _ ?_⟩
  simpa using hs

/-- The sine table of `_calculateArcAngles` is nonempty whenever the node
count is. -/
theorem calcArc_sin_ne_nil (jm : JsMath) (n : ℕ) (o : ℚ) (hn : n ≠ 0) :
    (_calculateArcAngles jm n o).sin ≠ [] := by
  have hlen : (_calculateArcAngles jm n o).sin.length = n := by
    show ((List.range n).map
      (fun (i : ℕ) => jm.sin (((i : ℚ) * (360 / (n : ℚ)) + o) * (jm.pi / 180)))).length = n
    rw [List.length_map, List.length_range]
  intro hnil
  rw [hnil] at hlen
  exact hn hlen.symm

/-- Every angle table produced by `_getArcAngles` has a nonempty sine
table. -/
theorem getArcAngles_sin_ne_nil (jm : JsMath) (gt : String) (arc : ArcAngles)
    (h : _getArcAngles jm gt = some arc) : arc.sin ≠ [] := by
  unfold _getArcAngles at h
  split at h <;>
    first
      | (injection h with h; subst h; exact calcArc_sin_ne_nil jm 36 0 (by decide))
      | (injection h with h; subst h; exact calcArc_sin_ne_nil jm 6 0 (by decide))
      | (injection h with h; subst h; exact calcArc_sin_ne_nil jm 6 30 (by decide))
      | cases h

/-- `gridPolygonOfScale` yields a single closed ring for every grid type,
given that any supplied angle table has a nonempty sine table. -/
theorem gridPolygonOfScale_closed (jm : JsMath) (ci : CellInfo)
    (options : GriddedDataSourceOptions) (w h : ℚ) (arcAngles : Option ArcAngles)
    (m scale : ℚ) (polys : List (List (ℚ × ℚ)))
    (harc : ∀ arc, arcAngles = some arc → arc.sin ≠ [])
    (hp : gridPolygonOfScale jm ci options w h arcAngles m scale = .ok polys) :
    ∃ ring, polys = [ring] ∧ closedRing ring := by
  unfold gridPolygonOfScale at hp
  split at hp
  · injection hp with hp
    subst hp
    exact getSquare_closed jm ci w scale m
  · cases harc2 : arcAngles with
    | none => rw [harc2] at hp; cases hp
    | some arc =>
        rw [harc2] at hp
        injection hp with hp
        subst hp
        exact getRegularPolygon_closed jm ci _ arc m (harc arc harc2)
  · injection hp with hp
    subst hp
    exact getTriangle_closed jm ci w h scale m
  · cases harc2 : arcAngles with
    | none => rw [harc2] at hp; cases hp
    | some arc =>
        rw [harc2] at hp
        injection hp with hp
        subst hp
        exact getRegularPolygon_closed jm ci _ arc m (harc arc harc2)
  · cases harc2 : arcAngles with
    | none => rw [harc2] at hp; cases hp
    | some arc =>
        rw [harc2] at hp
        injection hp with hp
        subst hp
        exact getRegularPolygon_closed jm ci _ arc m (harc arc harc2)

/-- A successful `createGridPolygon` is a successful `gridPolygonOfScale` at
some effective scale. -/
theorem createGridPolygon_exists_scale (jm : JsMath) (ci : CellInfo)
    (options : GriddedDataSourceOptions) (w h : ℚ) (arcAngles : Option ArcAngles)
    (m : ℚ) (se : Exp) (sm : Option ScaleRange) (polys : List (List (ℚ × ℚ)))
    (hp : createGridPolygon jm ci options w h arcAngles m se sm = .ok polys) :
    ∃ scale, gridPolygonOfScale jm ci options w h arcAngles m scale = .ok polys := by
  simp only [createGridPolygon] at hp
  split at hp
  · obtain ⟨s, -, hp⟩ := bindE_ok _ _ _ hp
    split at hp <;> exact ⟨_, hp⟩
  · exact ⟨_, hp⟩

/-- `createGridPolygon` yields a single closed ring (under the angle-table
condition). -/
theorem createGridPolygon_closed (jm : JsMath) (ci : CellInfo)
    (options : GriddedDataSourceOptions) (w h : ℚ) (arcAngles : Option ArcAngles)
    (m : ℚ) (se : Exp) (sm : Option ScaleRange) (polys : List (List (ℚ × ℚ)))
    (harc : ∀ arc, arcAngles = some arc → arc.sin ≠ [])
    (hp : createGridPolygon jm ci options w h arcAngles m se sm = .ok polys) :
    ∃ ring, polys = [ring] ∧ closedRing ring := by
  obtain ⟨scale, hp2⟩ := createGridPolygon_exists_scale jm ci options w h arcAngles m se sm
    polys hp
  exact gridPolygonOfScale_closed jm ci options w h arcAngles m scale polys harc hp2

/-- Every cell produced by `polyPass` carries a single closed ring. -/
theorem polyPass_closed (jm : JsMath) (options : GriddedDataSourceOptions)
    (width height : ℚ) (arcAngles : Option ArcAngles) (minCellWidth : ℚ) (scaleExp : Exp)
    (scaleMetrics : Option ScaleRange)
    (harc : ∀ arc, arcAngles = some arc → arc.sin ≠ []) :
    ∀ (cells out : List Feature),
      polyPass jm options width height arcAngles minCellWidth scaleExp scaleMetrics cells =
        .ok out →
      ∀ f ∈ out, ∃ ring, f.geometry = [ring] ∧ closedRing ring := by
  intro cells
  induction cells with
  | nil =>
      intro out h f hf
      injection h with h
      subst h
      cases hf
  | cons c rest ih =>
      intro out h f hf
      rw [polyPass] at h
      obtain ⟨poly, hpoly, h⟩ := bindE_ok _ _ _ h
      obtain ⟨tail, htail, h⟩ := bindE_ok _ _ _ h
      injection h with h
      subst h
      rcases List.mem_cons.mp hf with rfl | hf
      · exact createGridPolygon_closed jm c.properties options width height arcAngles
          minCellWidth scaleExp scaleMetrics poly harc hpoly
      · exact ih tail htail f hf

/-- Every cell produced by the fused `finalizePolyPass` carries a single
closed ring. -/
theorem finalizePolyPass_closed (jm : JsMath) (options : GriddedDataSourceOptions)
    (mapExps : List (String × CellAggregateExpression)) (width height : ℚ)
    (arcAngles : Option ArcAngles) (minCellWidth : ℚ) (scaleExp : Exp)
    (harc : ∀ arc, arcAngles = some arc → arc.sin ≠ []) :
    ∀ (cells : List Feature) (m : ScaleRange) (out : List Feature × ScaleRange),
      finalizePolyPass jm options mapExps width height arcAngles minCellWidth scaleExp
        cells m = .ok out →
      ∀ f ∈ out.1, ∃ ring, f.geometry = [ring] ∧ closedRing ring := by
  intro cells
  induction cells with
  | nil =>
      intro m out h f hf
      injection h with h
      subst h
      cases hf
  | cons c rest ih =>
      intro m out h f hf
      rw [finalizePolyPass] at h
      obtain ⟨r, hr, h⟩ := bindE_ok _ _ _ h
      obtain ⟨poly, hpoly, h⟩ := bindE_ok _ _ _ h
      obtain ⟨tail, htail, h⟩ := bindE_ok _ _ _ h
      injection h with h
      subst h
      rcases List.mem_cons.mp hf with rfl | hf
      · exact createGridPolygon_closed jm r.1 options width height arcAngles
          minCellWidth scaleExp (some r.2) poly harc hpoly
      · exact ih r.2 tail htail f hf

/-- Claim C7: for every grid type and every cell of a successful
`calculateGrid`, the produced geometry is a single ring whose first and last
coordinates are identical. -/
theorem C7_closed_ring_invariant (jm : JsMath) (convertDistance : ℚ → String → ℚ)
    (points : List JsVal) (pixels : List (ℚ × ℚ)) (options : GriddedDataSourceOptions)
    (g : GridInfo) (h : calculateGrid jm convertDistance points pixels options = .ok g) :
    ∀ f ∈ g.cells, ∃ ring, f.geometry = [ring] ∧ closedRing ring := by
  have harc : ∀ arc, _getArcAngles jm options.gridType = some arc → arc.sin ≠ [] :=
    fun arc ha => getArcAngles_sin_ne_nil jm options.gridType arc ha
  rw [calculateGrid] at h
  obtain ⟨se, -, h⟩ := bindE_ok _ _ _ h
  obtain ⟨g1, -, h⟩ := bindE_ok _ _ _ h
  rw [_finalizeGrid] at h
  split at h
  · obtain ⟨fm, -, h⟩ := bindE_ok _ _ _ h
    obtain ⟨cells, hcells, h⟩ := bindE_ok _ _ _ h
    injection h with h
    subst h
    intro f hf
    exact polyPass_closed jm options _ _ _ _ se (some fm.2) harc fm.1 cells
      hcells f hf
  · obtain ⟨fm, hfm, h⟩ := bindE_ok _ _ _ h
    injection h with h
    subst h
    intro f hf
    exact finalizePolyPass_closed jm options _ _ _ _ _ se harc g1.cells
      ⟨none, none⟩ fm hfm f hf

/-- A concrete option set for exercising the full grid computation: square
grid, no scale property, no aggregates. -/
def c7Opts : GriddedDataSourceOptions :=
  { gridType := "square", cellWidth := 100, minCellWidth := 0, distanceUnits := "meters",
    coverage := 1, centerLatitude := 0, scaleProperty := none, scaleExpression := none,
    aggregateProperties := none }

/-- A concrete one-point data set. -/
def c7Pts : List JsVal := [.obj []]

/-- The pixel for the concrete one-point data set. -/
def c7Pxs : List (ℚ × ℚ) := [(50, 50)]

/-- The grid produced by the concrete run (extracted from the successful
result). -/
def c7Grid : GridInfo :=
  match calculateGrid jm0 conv0 c7Pts c7Pxs c7Opts with
  | .ok g => g
  | .error _ => ⟨[], [], [], none, 0, 0⟩

/-- Claim C7, witness: the closed-ring invariant on the concrete one-point
square-grid run. -/
theorem C7_closed_ring_invariant_witness :
    calculateGrid jm0 conv0 c7Pts c7Pxs c7Opts = .ok c7Grid ∧
      ∀ f ∈ c7Grid.cells, ∃ ring, f.geometry = [ring] ∧ closedRing ring :=
  ⟨by decide, C7_closed_ring_invariant jm0 conv0 c7Pts c7Pxs c7Opts c7Grid (by decide)⟩

/-!
## Claim C10

Association-list bookkeeping lemmas for the two lookup tables, pointwise
field-preservation lemmas for the per-cell updates, and the binning-loop
invariant.
-/

/-- A lookup that succeeds in a prefix also succeeds in the whole list. -/
theorem lookup_append_of_some {β : Type} (l1 l2 : List (String × β)) (k : String) (v : β)
    (h : l1.lookup k = some v) : (l1 ++ l2).lookup k = some v := by
  rw [List.lookup_append, h]
  rfl

/-- A lookup that fails in a prefix falls through to the suffix. -/
theorem lookup_append_of_none {β : Type} (l1 l2 : List (String × β)) (k : String)
    (h : l1.lookup k = none) : (l1 ++ l2).lookup k = l2.lookup k := by
  rw [List.lookup_append, h]
  rfl

/-- Lookup in a one-entry table. -/
theorem lookup_singleton {β : Type} (k k' : String) (v : β) :
    List.lookup k' [(k, v)] = if k' = k then some v else none := by
  by_cases hk : k' = k
  · simp [List.lookup_cons, hk]
  · rw [List.lookup_cons, show (k' == k) = false from by simpa using hk, if_neg hk]
    rfl

/-- `assocPush` extends exactly the pushed key's entry. -/
theorem assocPush_lookup_self (l : List (String × List ℕ)) (k : String) (v : ℕ)
    (l0 : List ℕ) (h : l.lookup k = some l0) :
    (assocPush l k v).lookup k = some (l0 ++ [v]) := by
  induction l with
  | nil => cases h
  | cons p t ih =>
      obtain ⟨k0, e0⟩ := p
      by_cases hk : k0 = k
      · subst hk
        rw [List.lookup_cons_self] at h
        injection h with h
        subst h
        rw [assocPush, if_pos rfl, List.lookup_cons_self]
      · rw [List.lookup_cons] at h
        rw [show (k == k0) = false from by simpa using Ne.symm hk] at h
        rw [assocPush, if_neg hk, List.lookup_cons,
          show (k == k0) = false from by simpa using Ne.symm hk]
        exact ih h

/-- `assocPush` leaves every other key's entry unchanged. -/
theorem assocPush_lookup_ne (l : List (String × List ℕ)) (k k' : String) (v : ℕ)
    (hk : k' ≠ k) : (assocPush l k v).lookup k' = l.lookup k' := by
  induction l with
  | nil => rfl
  | cons p t ih =>
      obtain ⟨k0, e0⟩ := p
      by_cases h0 : k0 = k
      · rw [assocPush, if_pos h0, List.lookup_cons, List.lookup_cons,
          show (k' == k0) = false from by simpa [h0] using hk]
      · rw [assocPush, if_neg h0]
        by_cases h1 : k' = k0
        · subst h1
          rw [List.lookup_cons_self, List.lookup_cons_self]
        · rw [List.lookup_cons, List.lookup_cons,
            show (k' == k0) = false from by simpa using h1]
          exact ih

/-- Setting the last position of a one-longer list replaces its last
element. -/
theorem set_append_last {α : Type} (l : List α) (y x : α) :
    (l ++ [y]).set l.length x = l ++ [x] := by
  induction l with
  | nil => rfl
  | cons a t ih => simp [List.set, ih]

/-- The cell id a point index is assigned to: the id of the cell coordinate
of its pixel (`_getCellCoord` composed with the id format of
`_getGridCell`), or `none` past the end of the pixel array. -/
def assignedId (width height : ℚ) (gridType : String) (sqrt3 : ℚ)
    (pixels : List (ℚ × ℚ)) (i : ℕ) : Option String :=
  (pixels[i]?).map (fun px => cellIdOf (_getCellCoord px width height gridType sqrt3))

/-- The indices among the first `n` points assigned to a given cell id, in
input order. -/
def assignedIdx (width height : ℚ) (gridType : String) (sqrt3 : ℚ)
    (pixels : List (ℚ × ℚ)) (n : ℕ) (id : String) : List ℕ :=
  (List.range n).filter (fun j => assignedId width height gridType sqrt3 pixels j = some id)

/-- Extending the range by an index assigned to the id appends that index. -/
theorem assignedIdx_succ_self (width height : ℚ) (gridType : String) (sqrt3 : ℚ)
    (pixels : List (ℚ × ℚ)) (n : ℕ) (id : String)
    (h : assignedId width height gridType sqrt3 pixels n = some id) :
    assignedIdx width height gridType sqrt3 pixels (n + 1) id =
      assignedIdx width height gridType sqrt3 pixels n id ++ [n] := by
  unfold assignedIdx
  rw [List.range_succ, List.filter_append]
  simp [h]

/-- Extending the range by an index assigned elsewhere changes nothing. -/
theorem assignedIdx_succ_other (width height : ℚ) (gridType : String) (sqrt3 : ℚ)
    (pixels : List (ℚ × ℚ)) (n : ℕ) (id : String)
    (h : assignedId width height gridType sqrt3 pixels n ≠ some id) :
    assignedIdx width height gridType sqrt3 pixels (n + 1) id =
      assignedIdx width height gridType sqrt3 pixels n id := by
  unfold assignedIdx
  rw [List.range_succ, List.filter_append]
  simp [h]

/-- If no index below `n` is assigned to the id, the index list is empty. -/
theorem assignedIdx_eq_nil (width height : ℚ) (gridType : String) (sqrt3 : ℚ)
    (pixels : List (ℚ × ℚ)) (n : ℕ) (id : String)
    (h : ∀ j, j < n → assignedId width height gridType sqrt3 pixels j ≠ some id) :
    assignedIdx width height gridType sqrt3 pixels n id = [] := by
  unfold assignedIdx
  rw [List.filter_eq_nil_iff]
  intro j hj
  simpa using h j (List.mem_range.mp hj)

/-- `_incrementCellInfo` keeps the cell id and increments the point count. -/
theorem incrementCellInfo_fields (jm : JsMath) (c : CellInfo) (pt : JsVal)
    (aggProps : Option (List (String × JsVal)))
    (mapExps : List (String × CellAggregateExpression)) (r : CellInfo)
    (h : _incrementCellInfo jm c pt aggProps mapExps = .ok r) :
    r.cell_id = c.cell_id ∧ r.point_count = c.point_count + 1 := by
  unfold _incrementCellInfo at h
  split at h
  · injection h with h
    subst h
    exact ⟨rfl, rfl⟩
  · split at h
    · injection h with h
      subst h
      exact ⟨rfl, rfl⟩
    · obtain ⟨props, -, h⟩ := bindE_ok _ _ _ h
      injection h with h
      subst h
      exact ⟨rfl, rfl⟩

/-- `_createCellFromCubeCoord` stamps the id and starts the count at zero. -/
theorem createCellFromCubeCoord_fields (cid : String) (cube : CubeCoord) (gt : String)
    (w h : ℚ) (agg : Bool) :
    (_createCellFromCubeCoord cid cube gt w h agg).properties.cell_id = cid ∧
      (_createCellFromCubeCoord cid cube gt w h agg).properties.point_count = 0 := by
  unfold _createCellFromCubeCoord
  split <;> exact ⟨rfl, rfl⟩

/-- An aggregate finalize step keeps the cell id and the point count. -/
theorem aggFinalize_fields (jm : JsMath) (a : CellAggregateExpression) (c : CellInfo)
    (key : String) :
    (a.finalize jm c key).cell_id = c.cell_id ∧
      (a.finalize jm c key).point_count = c.point_count := by
  unfold CellAggregateExpression.finalize
  split <;> exact ⟨rfl, rfl⟩

/-- The whole finalize fold keeps the cell id and the point count. -/
theorem finalizeProps_fields (jm : JsMath)
    (aggs : List (String × CellAggregateExpression)) :
    ∀ c : CellInfo,
      (finalizeProps jm c aggs).cell_id = c.cell_id ∧
        (finalizeProps jm c aggs).point_count = c.point_count := by
  suffices hfold : ∀ (l : List (String × CellAggregateExpression)) (c : CellInfo),
      ((l.foldl (fun c ke => ke.2.finalize jm c ke.1) c).cell_id = c.cell_id ∧
        (l.foldl (fun c ke => ke.2.finalize jm c ke.1) c).point_count = c.point_count) by
    intro c
    exact (hfold aggs _ : _)
  intro l
  induction l with
  | nil => intro c; exact ⟨rfl, rfl⟩
  | cons ke rest ih =>
      intro c
      have h1 := aggFinalize_fields jm ke.2 c ke.1
      have h2 := ih (ke.2.finalize jm c ke.1)
      exact ⟨h2.1.trans h1.1, h2.2.trans h1.2⟩

/-- The per-cell finalize step keeps the cell id and the point count. -/
theorem finalizeCellInfo_fields (jm : JsMath) (c : CellInfo)
    (aggs : List (String × CellAggregateExpression)) (m : ScaleRange)
    (sp : Option String) (r : CellInfo × ScaleRange)
    (h : _finalizeCellInfo jm c aggs m sp = .ok r) :
    r.1.cell_id = c.cell_id ∧ r.1.point_count = c.point_count := by
  simp only [_finalizeCellInfo, pure_bindE, error_bindE, pureE_eq] at h
  split at h
  · split at h
    · cases h
    · split at h
      · injection h with h
        subst h
        exact finalizeProps_fields jm aggs c
      · injection h with h
        subst h
        exact finalizeProps_fields jm aggs c
  · injection h with h
    subst h
    exact finalizeProps_fields jm aggs c

/-- The last element of an appended singleton. -/
theorem get_last_concat {α : Type} (l : List α) (a : α)
    (h : l.length < (l ++ [a]).length) : (l ++ [a]).get ⟨l.length, h⟩ = a := by
  simp [List.get_eq_getElem]

/-- The bookkeeping invariant of the binning loop after the first `n` input
indices have been processed: the cell lookup table indexes every cell by its
id, the point lookup table stores exactly the assigned input indices in
order, the point counts agree with those lists, and every assigned id is
registered. -/
structure BinInv (width height : ℚ) (gridType : String) (sqrt3 : ℚ)
    (pixels : List (ℚ × ℚ)) (n : ℕ) (g : GridInfo) : Prop where
  cellIdx : ∀ k (hk : k < g.cells.length),
    g.cellLookupTable.lookup (g.cells.get ⟨k, hk⟩).properties.cell_id = some k
  idxCell : ∀ id idx, g.cellLookupTable.lookup id = some idx →
    ∃ hk : idx < g.cells.length, (g.cells.get ⟨idx, hk⟩).properties.cell_id = id
  ptTable : ∀ k (hk : k < g.cells.length),
    g.pointLookupTable.lookup (g.cells.get ⟨k, hk⟩).properties.cell_id =
      some (assignedIdx width height gridType sqrt3 pixels n
        (g.cells.get ⟨k, hk⟩).properties.cell_id)
  ptCount : ∀ k (hk : k < g.cells.length),
    (g.cells.get ⟨k, hk⟩).properties.point_count =
      (assignedIdx width height gridType sqrt3 pixels n
        (g.cells.get ⟨k, hk⟩).properties.cell_id).length
  freshPt : ∀ id, g.cellLookupTable.lookup id = none → g.pointLookupTable.lookup id = none
  assignedMem : ∀ j id, j < n → assignedId width height gridType sqrt3 pixels j = some id →
    (g.cellLookupTable.lookup id).isSome = true

/-- One binning step on a point that falls into an existing cell preserves
the invariant. -/
theorem binInv_step_existing (width height : ℚ) (gridType : String) (sqrt3 : ℚ)
    (pixels : List (ℚ × ℚ)) (i : ℕ) (g : GridInfo) (cellId : String) (cellIdx : ℕ)
    (cell : Feature) (props : CellInfo)
    (inv : BinInv width height gridType sqrt3 pixels i g)
    (hassign : assignedId width height gridType sqrt3 pixels i = some cellId)
    (hlk : g.cellLookupTable.lookup cellId = some cellIdx)
    (hcg : g.cells[cellIdx]? = some cell)
    (hpid : props.cell_id = cell.properties.cell_id)
    (hpc : props.point_count = cell.properties.point_count + 1) :
    BinInv width height gridType sqrt3 pixels (i + 1)
      { g with
          pointLookupTable := assocPush g.pointLookupTable cellId i,
          cells := g.cells.set cellIdx { cell with properties := props } } := by
  obtain ⟨hb, hcell⟩ := List.getElem?_eq_some_iff.mp hcg
  have hget : g.cells.get ⟨cellIdx, hb⟩ = cell := by
    rw [List.get_eq_getElem]
    exact hcell
  have hcid : cell.properties.cell_id = cellId := by
    obtain ⟨hb2, hid2⟩ := inv.idxCell cellId cellIdx hlk
    rwa [hget] at hid2
  have hidne : ∀ k (hk : k < g.cells.length), k ≠ cellIdx →
      (g.cells.get ⟨k, hk⟩).properties.cell_id ≠ cellId := by
    intro k hk hkc heq
    have hx := inv.cellIdx k hk
    rw [heq, hlk] at hx
    injection hx with hx
    exact hkc hx.symm
  have hids : ∀ k (hk' : k < (g.cells.set cellIdx { cell with properties := props }).length)
      (hk : k < g.cells.length),
      ((g.cells.set cellIdx { cell with properties := props }).get ⟨k, hk'⟩).properties.cell_id
        = (g.cells.get ⟨k, hk⟩).properties.cell_id := by
    intro k hk' hk
    by_cases hkc : cellIdx = k
    · subst hkc
      rw [List.get_set_eq]
      show props.cell_id = _
      rw [hpid, hget]
    · rw [List.get_set_ne hkc]
  have hlen : (g.cells.set cellIdx { cell with properties := props }).length =
      g.cells.length := List.length_set g.cells cellIdx _
  refine ⟨?_, ?_, ?_, ?_, ?_, ?_⟩
  · intro k hk'
    rw [hids k hk' (hlen ▸ hk')]
    exact inv.cellIdx k (hlen ▸ hk')
  · intro id idx hidx
    obtain ⟨hk, hid⟩ := inv.idxCell id idx hidx
    exact ⟨hlen ▸ hk, by rw [hids idx (hlen ▸ hk) hk]; exact hid⟩
  · intro k hk'
    have hk : k < g.cells.length := hlen ▸ hk'
    rw [hids k hk' hk]
    by_cases hkc : k = cellIdx
    · subst hkc
      have hpt := inv.ptTable k hk
      rw [hget, hcid] at hpt
      rw [hget, hcid, assocPush_lookup_self g.pointLookupTable cellId i _ hpt,
        assignedIdx_succ_self width height gridType sqrt3 pixels i cellId hassign]
    · have hne : (g.cells.get ⟨k, hk⟩).properties.cell_id ≠ cellId := hidne k hk hkc
      rw [assocPush_lookup_ne g.pointLookupTable cellId _ i hne]
      rw [assignedIdx_succ_other width height gridType sqrt3 pixels i _
        (by rw [hassign]; intro hcon; injection hcon with hcon; exact hne hcon.symm)]
      exact inv.ptTable k hk
  · intro k hk'
    have hk : k < g.cells.length := hlen ▸ hk'
    rw [hids k hk' hk]
    by_cases hkc : cellIdx = k
    · subst hkc
      rw [List.get_set_eq]
      show props.point_count = _
      rw [hget, hcid, hpc,
        assignedIdx_succ_self width height gridType sqrt3 pixels i cellId hassign]
      have hcnt := inv.ptCount cellIdx hk
      rw [hget, hcid] at hcnt
      rw [hcnt, List.length_append]
      rfl
    · rw [List.get_set_ne hkc]
      rw [assignedIdx_succ_other width height gridType sqrt3 pixels i _
        (by rw [hassign]; intro hcon; injection hcon with hcon
            exact hidne k hk (fun he => hkc he.symm) hcon.symm)]
      exact inv.ptCount k hk
  · intro id hnone
    have hne : id ≠ cellId := by
      intro he
      rw [he, hlk] at hnone
      cases hnone
    rw [assocPush_lookup_ne g.pointLookupTable cellId id i hne]
    exact inv.freshPt id hnone
  · intro j id hj hja
    rcases Nat.lt_succ_iff_lt_or_eq.mp hj with hj | hj
    · exact inv.assignedMem j id hj hja
    · subst hj
      rw [hassign] at hja
      injection hja with hja
      rw [← hja, hlk]
      rfl

/-- One binning step on a point that opens a fresh cell preserves the
invariant. -/
theorem binInv_step_fresh (width height : ℚ) (gridType : String) (sqrt3 : ℚ)
    (pixels : List (ℚ × ℚ)) (i : ℕ) (g : GridInfo) (cellId : String)
    (cell0 : Feature) (props : CellInfo)
    (inv : BinInv width height gridType sqrt3 pixels i g)
    (hassign : assignedId width height gridType sqrt3 pixels i = some cellId)
    (hlk : g.cellLookupTable.lookup cellId = none)
    (hc0id : cell0.properties.cell_id = cellId)
    (hpid : props.cell_id = cell0.properties.cell_id)
    (hpc : props.point_count = cell0.properties.point_count + 1)
    (hc0pc : cell0.properties.point_count = 0) :
    BinInv width height gridType sqrt3 pixels (i + 1)
      { g with
          pointLookupTable := g.pointLookupTable ++ [(cellId, [i])],
          cells := (g.cells ++ [cell0]).set g.cells.length { cell0 with properties := props },
          cellLookupTable := g.cellLookupTable ++ [(cellId, g.cells.length)] } := by
  have hnid : ({ cell0 with properties := props } : Feature).properties.cell_id = cellId :=
    hpid.trans hc0id
  have hnpc : ({ cell0 with properties := props } : Feature).properties.point_count = 1 := by
    show props.point_count = 1
    rw [hpc, hc0pc]
  have hset : (g.cells ++ [cell0]).set g.cells.length { cell0 with properties := props } =
      g.cells ++ [{ cell0 with properties := props }] := set_append_last g.cells cell0 _
  rw [hset]
  have hlen : (g.cells ++ [{ cell0 with properties := props }]).length =
      g.cells.length + 1 := by
    rw [List.length_append]
    rfl
  have hidne : ∀ k (hk : k < g.cells.length),
      (g.cells.get ⟨k, hk⟩).properties.cell_id ≠ cellId := by
    intro k hk heq
    have hx := inv.cellIdx k hk
    rw [heq, hlk] at hx
    cases hx
  have hnil : assignedIdx width height gridType sqrt3 pixels i cellId = [] := by
    refine assignedIdx_eq_nil width height gridType sqrt3 pixels i cellId ?_
    intro j hj hja
    have hx := inv.assignedMem j cellId hj hja
    rw [hlk] at hx
    simp at hx
  refine ⟨?_, ?_, ?_, ?_, ?_, ?_⟩
  · intro k hk'
    have hk2 : k < g.cells.length + 1 := hlen ▸ hk'
    rcases Nat.lt_succ_iff_lt_or_eq.mp hk2 with hk | hk
    · rw [List.get_append k hk]
      exact lookup_append_of_some _ _ _ _ (inv.cellIdx k hk)
    · subst hk
      rw [get_last_concat _ _ (by rw [hlen]; omega), hnid,
        lookup_append_of_none _ _ _ hlk, lookup_singleton, if_pos rfl]
  · intro id idx h'
    rw [List.lookup_append] at h'
    cases he : g.cellLookupTable.lookup id with
    | some v =>
        rw [he] at h'
        have hv : v = idx := by
          injection h' with h'
        subst hv
        obtain ⟨hk, hid⟩ := inv.idxCell id v he
        refine ⟨by rw [hlen]; omega, ?_⟩
        rw [List.get_append v hk]
        exact hid
    | none =>
        rw [he] at h'
        rw [show (Option.or none (List.lookup id [(cellId, g.cells.length)])) =
          List.lookup id [(cellId, g.cells.length)] from rfl, lookup_singleton] at h'
        by_cases hic : id = cellId
        · rw [if_pos hic] at h'
          injection h' with h'
          subst h'
          refine ⟨by rw [hlen]; omega, ?_⟩
          rw [get_last_concat _ _ (by rw [hlen]; omega), hnid, hic]
        · rw [if_neg hic] at h'
          cases h'
  · intro k hk'
    have hk2 : k < g.cells.length + 1 := hlen ▸ hk'
    rcases Nat.lt_succ_iff_lt_or_eq.mp hk2 with hk | hk
    · rw [List.get_append k hk]
      have hne := hidne k hk
      rw [lookup_append_of_some _ _ _ _ (inv.ptTable k hk),
        assignedIdx_succ_other width height gridType sqrt3 pixels i _
          (by rw [hassign]; intro hcon; injection hcon with hcon; exact hne hcon.symm)]
    · subst hk
      rw [get_last_concat _ _ (by rw [hlen]; omega), hnid,
        lookup_append_of_none _ _ _ (inv.freshPt cellId hlk), lookup_singleton, if_pos rfl,
        assignedIdx_succ_self width height gridType sqrt3 pixels i cellId hassign, hnil]
      rfl
  · intro k hk'
    have hk2 : k < g.cells.length + 1 := hlen ▸ hk'
    rcases Nat.lt_succ_iff_lt_or_eq.mp hk2 with hk | hk
    · rw [List.get_append k hk]
      have hne := hidne k hk
      rw [assignedIdx_succ_other width height gridType sqrt3 pixels i _
        (by rw [hassign]; intro hcon; injection hcon with hcon; exact hne hcon.symm)]
      exact inv.ptCount k hk
    · subst hk
      rw [get_last_concat _ _ (by rw [hlen]; omega), hnpc, hnid,
        assignedIdx_succ_self width height gridType sqrt3 pixels i cellId hassign, hnil]
      rfl
  · intro id hnone
    rw [List.lookup_append] at hnone
    cases he : g.cellLookupTable.lookup id with
    | some v => rw [he] at hnone; cases hnone
    | none =>
        rw [he] at hnone
        rw [show (Option.or none (List.lookup id [(cellId, g.cells.length)])) =
          List.lookup id [(cellId, g.cells.length)] from rfl, lookup_singleton] at hnone
        by_cases hic : id = cellId
        · rw [if_pos hic] at hnone
          cases hnone
        · rw [if_neg hic] at hnone
          rw [lookup_append_of_none _ _ _ (inv.freshPt id he), lookup_singleton, if_neg hic]
  · intro j id hj hja
    rcases Nat.lt_succ_iff_lt_or_eq.mp hj with hj | hj
    · have hx := inv.assignedMem j id hj hja
      obtain ⟨v, hv⟩ := Option.isSome_iff_exists.mp hx
      rw [lookup_append_of_some _ _ _ _ hv]
      rfl
    · subst hj
      rw [hassign] at hja
      injection hja with hja
      rw [← hja, lookup_append_of_none _ _ _ hlk, lookup_singleton, if_pos rfl]
      rfl

/-- The binning loop preserves the bookkeeping invariant, advancing the
processed count by the number of consumed points. -/
theorem binPoints_inv (jm : JsMath) (width height : ℚ) (gridType : String) (sqrt3 : ℚ)
    (hasAgg : Bool) (aggProps : Option (List (String × JsVal)))
    (mapExps : List (String × CellAggregateExpression)) (pixels : List (ℚ × ℚ)) :
    ∀ (pts : List JsVal) (i : ℕ) (g g' : GridInfo),
      binPoints jm width height gridType sqrt3 hasAgg aggProps mapExps pixels i pts g =
        .ok g' →
      BinInv width height gridType sqrt3 pixels i g →
      BinInv width height gridType sqrt3 pixels (i + pts.length) g' := by
  intro pts
  induction pts with
  | nil =>
      intro i g g' h inv
      injection h with h
      subst h
      exact inv
  | cons pt rest ih =>
      intro i g g' h inv
      rw [binPoints] at h
      split at h
      · cases h
      case h_2 px hpix =>
        have hassign : assignedId width height gridType sqrt3 pixels i =
            some (cellIdOf (_getCellCoord px width height gridType sqrt3)) := by
          unfold assignedId
          rw [hpix]
          rfl
        simp only [_getGridCell] at h
        have harith : i + (pt :: rest).length = (i + 1) + rest.length := by
          rw [List.length_cons]
          omega
        rw [harith]
        cases hlk : g.cellLookupTable.lookup
            (cellIdOf (_getCellCoord px width height gridType sqrt3)) with
        | some cellIdx =>
            rw [hlk] at h
            dsimp only at h
            split at h
            · cases h
            case h_2 cell hcg =>
              obtain ⟨props, hinc, h⟩ := bindE_ok _ _ _ h
              obtain ⟨hf1, hf2⟩ := incrementCellInfo_fields jm cell.properties pt aggProps
                mapExps props hinc
              exact ih (i + 1) _ g' h
                (binInv_step_existing width height gridType sqrt3 pixels i g _ cellIdx cell
                  props inv hassign hlk hcg hf1 hf2)
        | none =>
            rw [hlk] at h
            dsimp only at h
            split at h
            · cases h
            case h_2 cell hcg =>
              obtain ⟨props, hinc, h⟩ := bindE_ok _ _ _ h
              obtain ⟨hf1, hf2⟩ := incrementCellInfo_fields jm cell.properties pt aggProps
                mapExps props hinc
              have hcode := createCellFromCubeCoord_fields
                (cellIdOf (_getCellCoord px width height gridType sqrt3))
                (_getCellCoord px width height gridType sqrt3) gridType width height hasAgg
              have hcell0 : cell = _createCellFromCubeCoord
                  (cellIdOf (_getCellCoord px width height gridType sqrt3))
                  (_getCellCoord px width height gridType sqrt3) gridType width height
                  hasAgg := by
                have hx := hcg
                rw [show ((g.cells ++ [_createCellFromCubeCoord
                    (cellIdOf (_getCellCoord px width height gridType sqrt3))
                    (_getCellCoord px width height gridType sqrt3) gridType width height
                    hasAgg])[g.cells.length]?) = some (_createCellFromCubeCoord
                    (cellIdOf (_getCellCoord px width height gridType sqrt3))
                    (_getCellCoord px width height gridType sqrt3) gridType width height
                    hasAgg) from by simp] at hx
                injection hx with hx
                exact hx.symm
              subst hcell0
              exact ih (i + 1) _ g' h
                (binInv_step_fresh width height gridType sqrt3 pixels i g _ _ props inv
                  hassign hlk hcode.1 hf1 hf2 hcode.2)

/-- `finalizePass` preserves cell count, ids and point counts pointwise. -/
theorem finalizePass_fields (jm : JsMath)
    (mapExps : List (String × CellAggregateExpression)) (sp : Option String) :
    ∀ (cells : List Feature) (m : ScaleRange) (out : List Feature × ScaleRange),
      finalizePass jm mapExps sp cells m = .ok out →
      out.1.length = cells.length ∧
        ∀ k (hk2 : k < out.1.length) (hk : k < cells.length),
          (out.1.get ⟨k, hk2⟩).properties.cell_id =
              (cells.get ⟨k, hk⟩).properties.cell_id ∧
            (out.1.get ⟨k, hk2⟩).properties.point_count =
              (cells.get ⟨k, hk⟩).properties.point_count := by
  intro cells
  induction cells with
  | nil =>
      intro m out h
      injection h with h
      subst h
      exact ⟨rfl, fun k hk2 hk => absurd hk (by simp)⟩
  | cons cell rest ih =>
      intro m out h
      rw [finalizePass] at h
      obtain ⟨r, hr, h⟩ := bindE_ok _ _ _ h
      obtain ⟨tail, htail, h⟩ := bindE_ok _ _ _ h
      injection h with h
      subst h
      obtain ⟨hlen, hfields⟩ := ih r.2 tail htail
      refine ⟨by simpa using hlen, ?_⟩
      intro k hk2 hk
      cases k with
      | zero =>
          obtain ⟨h1, h2⟩ := finalizeCellInfo_fields jm cell.properties mapExps m sp r hr
          exact ⟨h1, h2⟩
      | succ k =>
          exact hfields k (by simp only [List.length_cons] at hk2; omega)
            (by simp only [List.length_cons] at hk; omega)

/-- `polyPass` preserves cell count and every cell's properties. -/
theorem polyPass_fields (jm : JsMath) (options : GriddedDataSourceOptions)
    (width height : ℚ) (arcAngles : Option ArcAngles) (minCellWidth : ℚ) (scaleExp : Exp)
    (scaleMetrics : Option ScaleRange) :
    ∀ (cells out : List Feature),
      polyPass jm options width height arcAngles minCellWidth scaleExp scaleMetrics cells =
        .ok out →
      out.length = cells.length ∧
        ∀ k (hk2 : k < out.length) (hk : k < cells.length),
          (out.get ⟨k, hk2⟩).properties = (cells.get ⟨k, hk⟩).properties := by
  intro cells
  induction cells with
  | nil =>
      intro out h
      injection h with h
      subst h
      exact ⟨rfl, fun k hk2 hk => absurd hk (by simp)⟩
  | cons cell rest ih =>
      intro out h
      rw [polyPass] at h
      obtain ⟨poly, hpoly, h⟩ := bindE_ok _ _ _ h
      obtain ⟨tail, htail, h⟩ := bindE_ok _ _ _ h
      injection h with h
      subst h
      obtain ⟨hlen, hfields⟩ := ih tail htail
      refine ⟨by simpa using hlen, ?_⟩
      intro k hk2 hk
      cases k with
      | zero => rfl
      | succ k =>
          exact hfields k (by simp only [List.length_cons] at hk2; omega)
            (by simp only [List.length_cons] at hk; omega)

/-- The fused `finalizePolyPass` preserves cell count, ids and point counts
pointwise. -/
theorem finalizePolyPass_fields (jm : JsMath) (options : GriddedDataSourceOptions)
    (mapExps : List (String × CellAggregateExpression)) (width height : ℚ)
    (arcAngles : Option ArcAngles) (minCellWidth : ℚ) (scaleExp : Exp) :
    ∀ (cells : List Feature) (m : ScaleRange) (out : List Feature × ScaleRange),
      finalizePolyPass jm options mapExps width height arcAngles minCellWidth scaleExp
        cells m = .ok out →
      out.1.length = cells.length ∧
        ∀ k (hk2 : k < out.1.length) (hk : k < cells.length),
          (out.1.get ⟨k, hk2⟩).properties.cell_id =
              (cells.get ⟨k, hk⟩).properties.cell_id ∧
            (out.1.get ⟨k, hk2⟩).properties.point_count =
              (cells.get ⟨k, hk⟩).properties.point_count := by
  intro cells
  induction cells with
  | nil =>
      intro m out h
      injection h with h
      subst h
      exact ⟨rfl, fun k hk2 hk => absurd hk (by simp)⟩
  | cons cell rest ih =>
      intro m out h
      rw [finalizePolyPass] at h
      obtain ⟨r, hr, h⟩ := bindE_ok _ _ _ h
      obtain ⟨poly, hpoly, h⟩ := bindE_ok _ _ _ h
      obtain ⟨tail, htail, h⟩ := bindE_ok _ _ _ h
      injection h with h
      subst h
      obtain ⟨hlen, hfields⟩ := ih r.2 tail htail
      refine ⟨by simpa using hlen, ?_⟩
      intro k hk2 hk
      cases k with
      | zero =>
          obtain ⟨h1, h2⟩ := finalizeCellInfo_fields jm cell.properties mapExps m
            options.scaleProperty r hr
          exact ⟨h1, h2⟩
      | succ k =>
          exact hfields k (by simp only [List.length_cons] at hk2; omega)
            (by simp only [List.length_cons] at hk; omega)

/-- `_finalizeGrid` keeps both lookup tables, the cell count, and every
cell's id and point count. -/
theorem finalizeGrid_fields (jm : JsMath) (g : GridInfo) (w ht : ℚ)
    (options : GriddedDataSourceOptions)
    (aggs : List (String × CellAggregateExpression)) (se : Exp) (minW : ℚ)
    (arcs : Option ArcAngles) (g' : GridInfo)
    (h : _finalizeGrid jm g w ht options aggs se minW arcs = .ok g') :
    g'.cellLookupTable = g.cellLookupTable ∧ g'.pointLookupTable = g.pointLookupTable ∧
      g'.cells.length = g.cells.length ∧
      ∀ k (hk2 : k < g'.cells.length) (hk : k < g.cells.length),
        (g'.cells.get ⟨k, hk2⟩).properties.cell_id =
            (g.cells.get ⟨k, hk⟩).properties.cell_id ∧
          (g'.cells.get ⟨k, hk2⟩).properties.point_count =
            (g.cells.get ⟨k, hk⟩).properties.point_count := by
  rw [_finalizeGrid] at h
  split at h
  · obtain ⟨fm, hfm, h⟩ := bindE_ok _ _ _ h
    obtain ⟨cells, hcells, h⟩ := bindE_ok _ _ _ h
    injection h with h
    subst h
    obtain ⟨hlen1, hfields1⟩ := finalizePass_fields jm aggs options.scaleProperty g.cells
      ⟨none, none⟩ fm hfm
    obtain ⟨hlen2, hfields2⟩ := polyPass_fields jm options w ht arcs minW se (some fm.2)
      fm.1 cells hcells
    refine ⟨rfl, rfl, hlen2.trans hlen1, ?_⟩
    intro k hk2 hk
    have hkm : k < fm.1.length := by omega
    have hp := hfields2 k hk2 hkm
    have hf := hfields1 k hkm hk
    exact ⟨by rw [hp]; exact hf.1, by rw [hp]; exact hf.2⟩
  · obtain ⟨fm, hfm, h⟩ := bindE_ok _ _ _ h
    injection h with h
    subst h
    obtain ⟨hlen1, hfields1⟩ := finalizePolyPass_fields jm options aggs w ht arcs minW se
      g.cells ⟨none, none⟩ fm hfm
    exact ⟨rfl, rfl, hlen1, hfields1⟩

/-- Claim C10: after a successful `calculateGrid`, every cell's id maps to
its position in the cell array through `cellLookupTable`, its entry in
`pointLookupTable` lists exactly the input point indices assigned to it in
input order, and its `point_count` is that list's length. -/
theorem C10_lookup_tables_invariant (jm : JsMath) (convertDistance : ℚ → String → ℚ)
    (points : List JsVal) (pixels : List (ℚ × ℚ)) (options : GriddedDataSourceOptions)
    (g : GridInfo) (h : calculateGrid jm convertDistance points pixels options = .ok g) :
    ∀ k (hk : k < g.cells.length),
      g.cellLookupTable.lookup ((g.cells.get ⟨k, hk⟩).properties.cell_id) = some k ∧
        g.pointLookupTable.lookup ((g.cells.get ⟨k, hk⟩).properties.cell_id) =
          some (assignedIdx (gridWidth jm convertDistance options)
            (gridHeight options.gridType (gridWidth jm convertDistance options) (jm.sqrt 3))
            options.gridType (jm.sqrt 3) pixels points.length
            ((g.cells.get ⟨k, hk⟩).properties.cell_id)) ∧
        (g.cells.get ⟨k, hk⟩).properties.point_count =
          (assignedIdx (gridWidth jm convertDistance options)
            (gridHeight options.gridType (gridWidth jm convertDistance options) (jm.sqrt 3))
            options.gridType (jm.sqrt 3) pixels points.length
            ((g.cells.get ⟨k, hk⟩).properties.cell_id)).length := by
  rw [calculateGrid] at h
  obtain ⟨se, -, h⟩ := bindE_ok _ _ _ h
  obtain ⟨g1, hbin, h⟩ := bindE_ok _ _ _ h
  have inv0 : BinInv (gridWidth jm convertDistance options)
      (gridHeight options.gridType (gridWidth jm convertDistance options) (jm.sqrt 3))
      options.gridType (jm.sqrt 3) pixels 0
      { cells := [], cellLookupTable := [], pointLookupTable := [], scaleMetrics := none,
        width := gridWidth jm convertDistance options,
        height := gridHeight options.gridType (gridWidth jm convertDistance options)
          (jm.sqrt 3) } := by
    refine ⟨?_, ?_, ?_, ?_, ?_, ?_⟩
    · exact fun k hk => absurd hk (by simp)
    · exact fun id idx hx => by cases hx
    · exact fun k hk => absurd hk (by simp)
    · exact fun k hk => absurd hk (by simp)
    · exact fun id _ => rfl
    · exact fun j id hj _ => absurd hj (by omega)
  have inv1 := binPoints_inv jm (gridWidth jm convertDistance options)
    (gridHeight options.gridType (gridWidth jm convertDistance options) (jm.sqrt 3))
    options.gridType (jm.sqrt 3) (hasAggregatesOf options) options.aggregateProperties
    (mapExpressionsOf options) pixels points 0 _ g1 hbin inv0
  rw [Nat.zero_add] at inv1
  obtain ⟨ht1, ht2, hlen, hfields⟩ := finalizeGrid_fields jm g1 _ _ options
    (mapExpressionsOf options) se _ _ g h
  intro k hk
  have hk1 : k < g1.cells.length := by omega
  obtain ⟨hid, hcnt⟩ := hfields k hk hk1
  refine ⟨?_, ?_, ?_⟩
  · rw [ht1, hid]
    exact inv1.cellIdx k hk1
  · rw [ht2, hid]
    exact inv1.ptTable k hk1
  · rw [hcnt, hid]
    exact inv1.ptCount k hk1

/-- A concrete two-point data set for the lookup-table witness. -/
def c10Pts : List JsVal := [.obj [], .obj []]

/-- Pixels placing the two points in two different square cells. -/
def c10Pxs : List (ℚ × ℚ) := [(50, 50), (650, 50)]

/-- The grid produced by the concrete two-point run. -/
def c10Grid : GridInfo :=
  match calculateGrid jm0 conv0 c10Pts c10Pxs c7Opts with
  | .ok g => g
  | .error _ => ⟨[], [], [], none, 0, 0⟩

/-- Claim C10, witness: the lookup-table invariant on the concrete two-point
run. -/
theorem C10_lookup_tables_invariant_witness :
    calculateGrid jm0 conv0 c10Pts c10Pxs c7Opts = .ok c10Grid ∧
      ∀ k (hk : k < c10Grid.cells.length),
        c10Grid.cellLookupTable.lookup
            ((c10Grid.cells.get ⟨k, hk⟩).properties.cell_id) = some k ∧
          c10Grid.pointLookupTable.lookup
              ((c10Grid.cells.get ⟨k, hk⟩).properties.cell_id) =
            some (assignedIdx (gridWidth jm0 conv0 c7Opts)
              (gridHeight c7Opts.gridType (gridWidth jm0 conv0 c7Opts) (jm0.sqrt 3))
              c7Opts.gridType (jm0.sqrt 3) c10Pxs c10Pts.length
              ((c10Grid.cells.get ⟨k, hk⟩).properties.cell_id)) ∧
          (c10Grid.cells.get ⟨k, hk⟩).properties.point_count =
            (assignedIdx (gridWidth jm0 conv0 c7Opts)
              (gridHeight c7Opts.gridType (gridWidth jm0 conv0 c7Opts) (jm0.sqrt 3))
              c7Opts.gridType (jm0.sqrt 3) c10Pxs c10Pts.length
              ((c10Grid.cells.get ⟨k, hk⟩).properties.cell_id)).length :=
  ⟨by decide, C10_lookup_tables_invariant jm0 conv0 c10Pts c10Pxs c7Opts c10Grid
    (by decide)⟩

/-!
## Claim C5
-/

/-- The binning loop never touches the grid's dimensions or scale metrics. -/
theorem binPoints_dims (jm : JsMath) (width height : ℚ) (gridType : String) (sqrt3 : ℚ)
    (hasAgg : Bool) (aggProps : Option (List (String × JsVal)))
    (mapExps : List (String × CellAggregateExpression)) (pixels : List (ℚ × ℚ)) :
    ∀ (pts : List JsVal) (i : ℕ) (g g' : GridInfo),
      binPoints jm width height gridType sqrt3 hasAgg aggProps mapExps pixels i pts g =
        .ok g' →
      g'.width = g.width ∧ g'.height = g.height ∧ g'.scaleMetrics = g.scaleMetrics := by
  intro pts
  induction pts with
  | nil =>
      intro i g g' h
      injection h with h
      subst h
      exact ⟨rfl, rfl, rfl⟩
  | cons pt rest ih =>
      intro i g g' h
      rw [binPoints] at h
      split at h
      · cases h
      case h_2 px hpix =>
        simp only [_getGridCell] at h
        cases hlk : g.cellLookupTable.lookup
            (cellIdOf (_getCellCoord px width height gridType sqrt3)) with
        | some cellIdx =>
            rw [hlk] at h
            dsimp only at h
            split at h
            · cases h
            case h_2 cell hcg =>
              obtain ⟨props, hinc, h⟩ := bindE_ok _ _ _ h
              have hd := ih (i + 1) _ g' h
              exact ⟨hd.1, hd.2.1, hd.2.2⟩
        | none =>
            rw [hlk] at h
            dsimp only at h
            split at h
            · cases h
            case h_2 cell hcg =>
              obtain ⟨props, hinc, h⟩ := bindE_ok _ _ _ h
              have hd := ih (i + 1) _ g' h
              exact ⟨hd.1, hd.2.1, hd.2.2⟩

/-- `polyPass` only reads each cell's properties: lists with pointwise equal
properties produce identical results. -/
theorem polyPass_congr (jm : JsMath) (options : GriddedDataSourceOptions) (w h : ℚ)
    (arcs : Option ArcAngles) (mw : ℚ) (se : Exp) (sm : Option ScaleRange) :
    ∀ (l1 l2 : List Feature), l1.length = l2.length →
      (∀ k (hk1 : k < l1.length) (hk2 : k < l2.length),
        (l1.get ⟨k, hk1⟩).properties = (l2.get ⟨k, hk2⟩).properties) →
      polyPass jm options w h arcs mw se sm l1 = polyPass jm options w h arcs mw se sm l2 := by
  intro l1
  induction l1 with
  | nil =>
      intro l2 hlen _
      cases l2 with
      | nil => rfl
      | cons c2 t2 => simp at hlen
  | cons c1 t1 ih =>
      intro l2 hlen hprop
      cases l2 with
      | nil => simp at hlen
      | cons c2 t2 =>
          have hc : c1.properties = c2.properties := hprop 0 (by simp) (by simp)
          have ht := ih t2 (by simpa using hlen)
            (fun k hk1 hk2 => hprop (k + 1) (by simpa using hk1) (by simpa using hk2))
          rw [polyPass, polyPass, hc, ht]

/-- With a falsy scale property, `createGridPolygon` never consults the
scale expression or the metrics. -/
theorem createGridPolygon_falsy (jm : JsMath) (ci : CellInfo)
    (options : GriddedDataSourceOptions) (w h : ℚ) (arcs : Option ArcAngles) (mw : ℚ)
    (se : Exp) (sm : Option ScaleRange)
    (hsp : optStrTruthy options.scaleProperty = false) :
    createGridPolygon jm ci options w h arcs mw se sm =
      gridPolygonOfScale jm ci options w h arcs mw
        (if options.coverage = 0 then 1 else options.coverage) := by
  simp only [createGridPolygon]
  rw [if_neg (fun hc => by rw [hsp] at hc; exact absurd hc.1 (by decide))]
  rfl

/-- With a falsy (and unchanged) scale property, the fused finalize/polygon
pass under new options equals re-running only the polygon pass over the old
fused output — against any metrics. -/
theorem fused_relate (jm : JsMath) (o1 o2 : GriddedDataSourceOptions)
    (aggs : List (String × CellAggregateExpression)) (w h : ℚ) (arcs : Option ArcAngles)
    (mw1 mw2 : ℚ) (se1 se2 : Exp) (sm2 : Option ScaleRange)
    (hsp2 : optStrTruthy o2.scaleProperty = false)
    (hsps : o2.scaleProperty = o1.scaleProperty) :
    ∀ (cells : List Feature) (m : ScaleRange) (fm1 : List Feature × ScaleRange),
      finalizePolyPass jm o1 aggs w h arcs mw1 se1 cells m = .ok fm1 →
      finalizePolyPass jm o2 aggs w h arcs mw2 se2 cells m =
        (polyPass jm o2 w h arcs mw2 se2 sm2 fm1.1).map (fun cs => (cs, fm1.2)) := by
  intro cells
  induction cells with
  | nil =>
      intro m fm1 h1
      injection h1 with h1
      subst h1
      rfl
  | cons c rest ih =>
      intro m fm1 h1
      rw [finalizePolyPass] at h1
      obtain ⟨r, hr, h1⟩ := bindE_ok _ _ _ h1
      obtain ⟨poly1, hpoly1, h1⟩ := bindE_ok _ _ _ h1
      obtain ⟨tail1, htail1, h1⟩ := bindE_ok _ _ _ h1
      injection h1 with h1
      subst h1
      rw [finalizePolyPass, hsps, hr, ok_bindM]
      dsimp only
      rw [polyPass]
      dsimp only
      rw [createGridPolygon_falsy jm r.1 o2 w h arcs mw2 se2 (some r.2) hsp2,
        createGridPolygon_falsy jm r.1 o2 w h arcs mw2 se2 sm2 hsp2,
        ih r.2 tail1 htail1]
      cases hgp : gridPolygonOfScale jm r.1 o2 w h arcs mw2
          (if o2.coverage = 0 then 1 else o2.coverage) with
      | error e => rfl
      | ok poly =>
          cases hpp : polyPass jm o2 w h arcs mw2 se2 sm2 tail1.1 with
          | error e => rfl
          | ok cs => rfl

/-- Claim C5 (amended): for option changes limited to `coverage`,
`minCellWidth` and `scaleExpression` — with the scale property itself (and
every binning-relevant field) unchanged — the coordinates-only recompute
over the old grid equals a full recompute with the new options. -/
theorem C5_coordinates_only_equivalence_amended (jm : JsMath)
    (convertDistance : ℚ → String → ℚ) (points : List JsVal) (pixels : List (ℚ × ℚ))
    (o1 o2 : GriddedDataSourceOptions) (g1 : GridInfo)
    (hgt : o2.gridType = o1.gridType) (hcw : o2.cellWidth = o1.cellWidth)
    (hdu : o2.distanceUnits = o1.distanceUnits)
    (hcl : o2.centerLatitude = o1.centerLatitude)
    (hsp : o2.scaleProperty = o1.scaleProperty)
    (hap : o2.aggregateProperties = o1.aggregateProperties)
    (h1 : calculateGrid jm convertDistance points pixels o1 = .ok g1) :
    recalculateCoords jm convertDistance g1 o2 =
      calculateGrid jm convertDistance points pixels o2 := by
  have hw : gridWidth jm convertDistance o2 = gridWidth jm convertDistance o1 := by
    unfold gridWidth _getGroundResolutionZ22
    rw [hcw, hdu, hcl]
  have hh : gridHeight o2.gridType (gridWidth jm convertDistance o2) (jm.sqrt 3) =
      gridHeight o1.gridType (gridWidth jm convertDistance o1) (jm.sqrt 3) := by
    rw [hgt, hw]
  have hagg : hasAggregatesOf o2 = hasAggregatesOf o1 := by
    unfold hasAggregatesOf
    rw [hap]
  have hmap : mapExpressionsOf o2 = mapExpressionsOf o1 := by
    unfold mapExpressionsOf
    rw [hap, hagg]
  rw [calculateGrid] at h1
  obtain ⟨se1, hparse1, h1⟩ := bindE_ok _ _ _ h1
  obtain ⟨gb, hbin1, h1⟩ := bindE_ok _ _ _ h1
  have hdims := binPoints_dims jm (gridWidth jm convertDistance o1)
    (gridHeight o1.gridType (gridWidth jm convertDistance o1) (jm.sqrt 3)) o1.gridType
    (jm.sqrt 3) (hasAggregatesOf o1) o1.aggregateProperties (mapExpressionsOf o1) pixels
    points 0 _ gb hbin1
  have hgw : gb.width = gridWidth jm convertDistance o1 := hdims.1
  have hgh : gb.height =
      gridHeight o1.gridType (gridWidth jm convertDistance o1) (jm.sqrt 3) := hdims.2.1
  rw [recalculateCoords, calculateGrid]
  cases hp : Expression.parse (o2.scaleExpression.getD LinearPointCountScaleExpression) with
  | error e => rfl
  | ok se2 =>
      dsimp only
      rw [ok_bindM, ok_bindM, hh, hw, hgt, hagg, hap, hmap, hbin1, ok_bindM]
      rw [_finalizeGrid] at h1
      split at h1
      case isTrue hc =>
        obtain ⟨fm, hfm, h1⟩ := bindE_ok _ _ _ h1
        obtain ⟨cells1, hcells1, h1⟩ := bindE_ok _ _ _ h1
        injection h1 with h1
        subst h1
        rw [_finalizeGrid, hsp, if_pos hc, hfm, ok_bindM]
        dsimp only
        rw [hgw, hgh]
        obtain ⟨hplen, hpfields⟩ := polyPass_fields jm o1
          (gridWidth jm convertDistance o1)
          (gridHeight o1.gridType (gridWidth jm convertDistance o1) (jm.sqrt 3))
          (_getArcAngles jm o1.gridType) (gridMinCellWidth jm convertDistance o1) se1
          (some fm.2) fm.1 cells1 hcells1
        rw [polyPass_congr jm o2 (gridWidth jm convertDistance o1)
          (gridHeight o1.gridType (gridWidth jm convertDistance o1) (jm.sqrt 3))
          (_getArcAngles jm o1.gridType) (gridMinCellWidth jm convertDistance o2) se2
          (some fm.2) cells1 fm.1 hplen (fun k hk1 hk2 => hpfields k hk1 hk2)]
      case isFalse hc =>
        have hcf : optStrTruthy o1.scaleProperty = false := by
          revert hc
          cases optStrTruthy o1.scaleProperty <;> simp
        have hsp2 : optStrTruthy o2.scaleProperty = false := by rw [hsp]; exact hcf
        obtain ⟨fm1, hfm1, h1⟩ := bindE_ok _ _ _ h1
        injection h1 with h1
        subst h1
        rw [_finalizeGrid, hsp, if_neg hc]
        dsimp only
        rw [hgw, hgh]
        rw [fused_relate jm o1 o2 (mapExpressionsOf o1) (gridWidth jm convertDistance o1)
          (gridHeight o1.gridType (gridWidth jm convertDistance o1) (jm.sqrt 3))
          (_getArcAngles jm o1.gridType) (gridMinCellWidth jm convertDistance o1)
          (gridMinCellWidth jm convertDistance o2) se1 se2 (some fm1.2) hsp2 hsp
          gb.cells ⟨none, none⟩ fm1 hfm1]
        cases hpp : polyPass jm o2 (gridWidth jm convertDistance o1)
            (gridHeight o1.gridType (gridWidth jm convertDistance o1) (jm.sqrt 3))
            (_getArcAngles jm o1.gridType) (gridMinCellWidth jm convertDistance o2) se2
            (some fm1.2) fm1.1 with
        | error e => rfl
        | ok cs => rfl

/-- Options with a scale property over the aggregate `total` and an explicit
`['get','min']` scale expression. -/
def c5o1 : GriddedDataSourceOptions :=
  { gridType := "square", cellWidth := 100, minCellWidth := 0, distanceUnits := "meters",
    coverage := 1, centerLatitude := 0, scaleProperty := some "total",
    scaleExpression := some (.arr [.str "get", .str "min"]),
    aggregateProperties := some [("total", aggPlusValue)] }

/-- The same options with the scale property switched to `point_count` — a
change the claim lists as coordinates-only. -/
def c5o2 : GriddedDataSourceOptions := { c5o1 with scaleProperty := some "point_count" }

/-- A one-point data set whose aggregate value (100) differs from its point
count (1). -/
def c5Pts : List JsVal := [.obj [("value", .num (.fin 100))]]

/-- The pixel of the one-point data set. -/
def c5Pxs : List (ℚ × ℚ) := [(50, 50)]

/-- Claim C5, counterexample: switching `scaleProperty` to `point_count` is
not coordinates-only — `recalculateCoords` reuses the stale scale metrics of
the old scale property, so its polygons differ from a full recompute, even
though both paths succeed. -/
theorem C5_counterexample :
    ((calculateGrid jm0 conv0 c5Pts c5Pxs c5o1).bind
        (fun g => recalculateCoords jm0 conv0 g c5o2)).isOk = true ∧
      (calculateGrid jm0 conv0 c5Pts c5Pxs c5o2).isOk = true ∧
      Except.map (fun g => g.cells.map (fun c => c.geometry))
          ((calculateGrid jm0 conv0 c5Pts c5Pxs c5o1).bind
            (fun g => recalculateCoords jm0 conv0 g c5o2)) ≠
        Except.map (fun g => g.cells.map (fun c => c.geometry))
          (calculateGrid jm0 conv0 c5Pts c5Pxs c5o2) :=
  ⟨by decide, by decide, by decide⟩

/-- The witness's changed options: same as the closed-ring run's options with
the coverage halved. -/
def c5wo2 : GriddedDataSourceOptions := { c7Opts with coverage := 1/2 }

/-- Claim C5 (amended), witness: a concrete coverage-only change, where the
coordinates-only recompute equals the full recompute. -/
theorem C5_coordinates_only_equivalence_amended_witness :
    calculateGrid jm0 conv0 c7Pts c7Pxs c7Opts = .ok c7Grid ∧
      recalculateCoords jm0 conv0 c7Grid c5wo2 =
        calculateGrid jm0 conv0 c7Pts c7Pxs c5wo2 :=
  ⟨by decide, C5_coordinates_only_equivalence_amended jm0 conv0 c7Pts c7Pxs c7Opts c5wo2
    c7Grid rfl rfl rfl rfl rfl rfl (by decide)⟩

end GriddedDS
